import Mathlib

/- Verification development for the Game_3111 repository: two Direct3D-12
demo applications, MyCastleApp (Game-3111_A1_Sha_taojin.cpp) and
TreeBillboardsApp (Week7-2-TreeBillboardsApp.cpp).  The shallow embedding
models floating-point scalars as rationals, GPU buffer handles for the
dynamic wave vertex buffer as ring-slot identifiers, and upload buffers
as partial maps from element index to element value.  Code of the
repository that lives outside src/ (the Common helpers MathHelper,
GeometryGenerator and the Waves class) is modelled from the spec where a
claim depends on it; each such definition is marked in its doc comment. -/

namespace Game3111

/-- Ring depth, `const int gNumFrameResources = 3;` in both apps. -/
def gNumFrameResources : Nat := 3

/-- A 4x4 matrix of scalars (XMFLOAT4X4), entries as rationals. -/
abbrev Mat4 : Type := Fin 4 → Fin 4 → ℚ

/-- XMMatrixTranspose. -/
def transpose4 (m : Mat4) : Mat4 := fun i j => m j i

/-- MathHelper::Identity4x4. -/
def identity4x4 : Mat4 := fun i j => if i = j then 1 else 0

/-- UploadBuffer::CopyData(i, v): overwrite element i of a buffer modelled
as a partial map (none = never written). -/
def copyData {β : Type} (cb : Nat → Option β) (i : Nat) (v : β) :
    Nat → Option β :=
  fun j => if j = i then some v else cb j

/-! ## Camera zoom clamp (OnMouseMove, right button) -/

/-- Modelled from the spec: MathHelper::Clamp (Common/MathHelper.h, not
under src/) restricts a value to the closed interval [low, high]. -/
def Clamp (x low high : ℚ) : ℚ :=
  if x < low then low else if x > high then high else x

/-- One right-drag radius update with a fixed total delta d:
mRadius += dx - dy; mRadius = Clamp(mRadius, 5.0f, 150.0f). -/
def zoomStep (d r : ℚ) : ℚ := Clamp (r + d) 5 150

/-- TreeBillboardsApp::OnMouseMove, right-button branch: pixel scale 0.2
(= 1/5), then clamp the radius to [5, 150]. -/
def OnMouseMoveZoomA2 (mRadius : ℚ) (x lastX y lastY : ℤ) : ℚ :=
  let dx : ℚ := (1/5) * ((x : ℚ) - (lastX : ℚ))
  let dy : ℚ := (1/5) * ((y : ℚ) - (lastY : ℚ))
  Clamp (mRadius + (dx - dy)) 5 150

/-- MyCastleApp::OnMouseMove, right-button branch: pixel scale 0.05
(= 1/20), then clamp the radius to [5, 150]. -/
def OnMouseMoveZoomA1 (mRadius : ℚ) (x lastX y lastY : ℤ) : ℚ :=
  let dx : ℚ := (1/20) * ((x : ℚ) - (lastX : ℚ))
  let dy : ℚ := (1/20) * ((y : ℚ) - (lastY : ℚ))
  Clamp (mRadius + (dx - dy)) 5 150

lemma clamp_mem (x : ℚ) : 5 ≤ Clamp x 5 150 ∧ Clamp x 5 150 ≤ 150 := by
  unfold Clamp
  split
  · constructor <;> norm_num
  · split
    · constructor <;> norm_num
    · constructor <;> linarith [le_of_not_lt (by assumption : ¬ x < 5),
        le_of_not_lt (by assumption : ¬ x > 150)]

lemma zoomStep_high (r d : ℚ) (hr : r ≤ 150) (hd : 150 < r + d) :
    zoomStep d r = 150 := by
  unfold zoomStep Clamp
  have h5 : ¬ r + d < 5 := by linarith
  simp [h5, hd]

lemma zoomStep_low (r d : ℚ) (hr : 5 ≤ r) (hd : r + d < 5) :
    zoomStep d r = 5 := by
  unfold zoomStep Clamp
  simp [hd]

lemma zoomStep_iter_high (d : ℚ) (hd : 0 ≤ d) :
    ∀ n : Nat, (zoomStep d)^[n] 150 = 150 := by
  intro n
  induction n with
  | zero => rfl
  | succ k ih =>
      rw [Function.iterate_succ_apply', ih]
      unfold zoomStep Clamp
      have h5 : ¬ (150 : ℚ) + d < 5 := by linarith
      by_cases h : (150 : ℚ) + d > 150
      · simp [h5, h]
      · simp [h5, h]
        linarith [le_of_not_lt h]

lemma zoomStep_iter_low (d : ℚ) (hd : d ≤ 0) :
    ∀ n : Nat, (zoomStep d)^[n] 5 = 5 := by
  intro n
  induction n with
  | zero => rfl
  | succ k ih =>
      rw [Function.iterate_succ_apply', ih]
      unfold zoomStep Clamp
      by_cases h : (5 : ℚ) + d < 5
      · simp [h]
      · have h150 : ¬ (5 : ℚ) + d > 150 := by linarith
        simp [h, h150]
        linarith [le_of_not_lt h]

/-- Claim C9: for every starting radius in [5, 150] and every right-drag
zoom delta, the mouse-move radius update of either app leaves the radius
in [5, 150]; a delta that would push the radius past a bound leaves it
pinned exactly at that bound, and the clamped update is idempotent at the
bounds under repeated application. -/
theorem C9_camera_clamp :
    (∀ (r : ℚ) (x lastX y lastY : ℤ), 5 ≤ r → r ≤ 150 →
        5 ≤ OnMouseMoveZoomA2 r x lastX y lastY ∧
          OnMouseMoveZoomA2 r x lastX y lastY ≤ 150) ∧
    (∀ (r : ℚ) (x lastX y lastY : ℤ), 5 ≤ r → r ≤ 150 →
        5 ≤ OnMouseMoveZoomA1 r x lastX y lastY ∧
          OnMouseMoveZoomA1 r x lastX y lastY ≤ 150) ∧
    (∀ r d : ℚ, r ≤ 150 → 150 < r + d → zoomStep d r = 150) ∧
    (∀ r d : ℚ, 5 ≤ r → r + d < 5 → zoomStep d r = 5) ∧
    (∀ d : ℚ, 0 ≤ d → ∀ n : Nat, (zoomStep d)^[n] 150 = 150) ∧
    (∀ d : ℚ, d ≤ 0 → ∀ n : Nat, (zoomStep d)^[n] 5 = 5) := by
  refine ⟨?_, ?_, ?_, ?_, ?_, ?_⟩
  · intro r x lastX y lastY _ _
    exact clamp_mem _
  · intro r x lastX y lastY _ _
    exact clamp_mem _
  · intro r d hr hd; exact zoomStep_high r d hr hd
  · intro r d hr hd; exact zoomStep_low r d hr hd
  · intro d hd n; exact zoomStep_iter_high d hd n
  · intro d hd n; exact zoomStep_iter_low d hd n

/-- Witness for C9 at concrete inputs: radius 50, a 100-pixel rightward
drag in app 2 (delta +20), and pinning at 150 for a huge drag. -/
theorem C9_camera_clamp_witness :
    (5 ≤ OnMouseMoveZoomA2 50 100 0 0 0 ∧
      OnMouseMoveZoomA2 50 100 0 0 0 ≤ 150) ∧
    zoomStep 1000 100 = 150 ∧
    (zoomStep 7)^[4] 150 = 150 := by
  refine ⟨C9_camera_clamp.1 50 100 0 0 0 (by norm_num) (by norm_num),
    C9_camera_clamp.2.2.1 100 1000 (by norm_num) (by norm_num),
    C9_camera_clamp.2.2.2.2.1 7 (by norm_num) 4⟩

/-! ## Frame scheduler pacing (Update in both apps, lines 242-266 / 207-228) -/

/-- Scheduler state: current ring index, the fence stamped on each ring
slot, and the global monotone fence counter. -/
structure SchedState where
  currFrameResourceIndex : Nat
  slotFence : Nat → Nat
  currentFence : Nat

/-- Per-frame observation record: the ring slot selected for the frame,
that slot's stamped fence when selected, and the device completed-fence
value the CPU has observed at the moment the update phase begins. -/
structure FrameRecord where
  slot : Nat
  fenceBefore : Nat
  observedCompleted : Nat
deriving DecidableEq

/-- One frame of the pacing loop: advance the ring index, then block while
the selected slot's fence is nonzero and the device's completed value is
below it (after the wait the completed value observed is at least the
fence), then (update and draw phases run against the slot) stamp the
incremented global fence on the slot.  `gpuCompleted` is the device
completed-fence value the frame's poll returns. -/
def frameStep (s : SchedState) (gpuCompleted : Nat) : SchedState × FrameRecord :=
  let idx := (s.currFrameResourceIndex + 1) % gNumFrameResources
  let f := s.slotFence idx
  let observed := if f ≠ 0 ∧ gpuCompleted < f then f else gpuCompleted
  let newFence := s.currentFence + 1
  ({ currFrameResourceIndex := idx,
     slotFence := fun j => if j = idx then newFence else s.slotFence j,
     currentFence := newFence },
   { slot := idx, fenceBefore := f, observedCompleted := observed })

/-- Run the pacing loop over a list of per-frame device completed-fence
observations, collecting the per-frame records. -/
def runSched : SchedState → List Nat → SchedState × List FrameRecord
  | s, [] => (s, [])
  | s, g :: gs =>
      let p := frameStep s g
      let q := runSched p.1 gs
      (q.1, p.2 :: q.2)

/-- Initial scheduler state: index 0, all slot fences 0, global fence 0. -/
def initSched : SchedState :=
  { currFrameResourceIndex := 0, slotFence := fun _ => 0, currentFence := 0 }

/-- Claim C1: in every frame of any run, when the update and draw phases
begin against the selected ring slot, either that slot was never stamped
(fence 0) or the observed device completed value has reached the slot's
stamped fence — the slot is never reused before its previous work is
observed complete. -/
theorem C1_no_premature_reuse (s : SchedState) (gpus : List Nat) :
    ∀ rec ∈ (runSched s gpus).2,
      rec.fenceBefore = 0 ∨ rec.fenceBefore ≤ rec.observedCompleted := by
  induction gpus generalizing s with
  | nil => intro rec h; simp [runSched] at h
  | cons g gs ih =>
      intro rec h
      simp only [runSched, List.mem_cons] at h
      rcases h with h | h
      · subst h
        have hgoal : ∀ f g : Nat, f = 0 ∨ f ≤ (if f ≠ 0 ∧ g < f then f else g) := by
          intro f g
          by_cases hz : f = 0
          · exact Or.inl hz
          · right
            by_cases hlt : g < f
            · simp [hz, hlt]
            · simp only [hz, hlt, ne_eq, not_false_iff, and_false, if_false]
              omega
        exact hgoal (s.slotFence ((s.currFrameResourceIndex + 1) % gNumFrameResources)) g
      · exact ih _ rec h

/-- Witness for C1: a concrete 4-frame run from the initial state in which
frame 4 actually has to wait on slot 1's fence (stamped in frame 1). -/
theorem C1_no_premature_reuse_witness :
    ({ slot := 1, fenceBefore := 1, observedCompleted := 1 } : FrameRecord).fenceBefore = 0 ∨
    ({ slot := 1, fenceBefore := 1, observedCompleted := 1 } : FrameRecord).fenceBefore ≤
      ({ slot := 1, fenceBefore := 1, observedCompleted := 1 } : FrameRecord).observedCompleted :=
  C1_no_premature_reuse initSched [0, 0, 0, 0] _ (by decide)

/-! ## Render layers and draw ordering (TreeBillboardsApp::Draw, lines 302-311) -/

/-- The four render layers of TreeBillboardsApp (enum RenderLayer). -/
inductive RenderLayer
  | Opaque | Transparent | AlphaTested | AlphaTestedTreeSprites
deriving DecidableEq

/-- One recorded draw call: the pipeline state active when it was issued
(set by name before each layer group in Draw) and the render item drawn. -/
structure DrawCall (ρ : Type) where
  pso : String
  item : ρ

/-- TreeBillboardsApp::DrawRenderItems: one indexed draw call per render
item, in list order, under the currently bound pipeline state. -/
def drawRenderItems {ρ : Type} (pso : String) (ritems : List ρ) : List (DrawCall ρ) :=
  ritems.map (fun r => { pso := pso, item := r })

/-- The draw-call sequence recorded by TreeBillboardsApp::Draw: the opaque
layer under the initial "opaque" PSO, then the alpha-tested layer, then
the tree-sprite billboards, then the transparent layer. -/
def drawFrameA2 {ρ : Type} (layer : RenderLayer → List ρ) : List (DrawCall ρ) :=
  drawRenderItems "opaque" (layer RenderLayer.Opaque) ++
  (drawRenderItems "alphaTested" (layer RenderLayer.AlphaTested) ++
  (drawRenderItems "treeSprites" (layer RenderLayer.AlphaTestedTreeSprites) ++
  drawRenderItems "transparent" (layer RenderLayer.Transparent)))

/-- Position of each pipeline state in the fixed draw order of Draw. -/
def psoRank : String → Nat
  | "opaque" => 0
  | "alphaTested" => 1
  | "treeSprites" => 2
  | "transparent" => 3
  | _ => 4

/-- The PSO name Draw binds for each layer's group. -/
def psoOfLayer : RenderLayer → String
  | RenderLayer.Opaque => "opaque"
  | RenderLayer.AlphaTested => "alphaTested"
  | RenderLayer.AlphaTestedTreeSprites => "treeSprites"
  | RenderLayer.Transparent => "transparent"

/-- The items of the draw calls issued under a given pipeline state, in
emission order. -/
def itemsWithPso {ρ : Type} (q : String) : List (DrawCall ρ) → List ρ
  | [] => []
  | c :: cs => if c.pso = q then c.item :: itemsWithPso q cs else itemsWithPso q cs

lemma itemsWithPso_append {ρ : Type} (q : String) (a b : List (DrawCall ρ)) :
    itemsWithPso q (a ++ b) = itemsWithPso q a ++ itemsWithPso q b := by
  induction a with
  | nil => simp [itemsWithPso]
  | cons c cs ih =>
      simp only [List.cons_append, itemsWithPso]
      by_cases h : c.pso = q <;> simp [h, ih]

lemma itemsWithPso_drawRenderItems {ρ : Type} (p q : String) (L : List ρ) :
    itemsWithPso q (drawRenderItems p L) = if p = q then L else [] := by
  induction L with
  | nil => simp [itemsWithPso, drawRenderItems]
  | cons r rs ih =>
      simp only [drawRenderItems, List.map_cons] at ih ⊢
      by_cases h : p = q
      · subst h
        simp only [if_pos rfl] at ih
        simp [itemsWithPso, ih]
      · simp only [if_neg h] at ih
        simp [itemsWithPso, h, ih]

lemma sorted_replicate (n : Nat) (a : Nat) :
    (List.replicate n a).Sorted (· ≤ ·) := by
  induction n with
  | zero => simp
  | succ k ih =>
      rw [List.replicate_succ]
      rw [List.sorted_cons]
      refine ⟨?_, ih⟩
      intro b hb
      rw [List.eq_of_mem_replicate hb]

lemma sorted_le_append {l₁ l₂ : List Nat} :
    (l₁ ++ l₂).Sorted (· ≤ ·) ↔
      l₁.Sorted (· ≤ ·) ∧ l₂.Sorted (· ≤ ·) ∧ ∀ a ∈ l₁, ∀ b ∈ l₂, a ≤ b :=
  List.pairwise_append

lemma ranks_drawRenderItems {ρ : Type} (p : String) (L : List ρ) :
    (drawRenderItems p L).map (fun c => psoRank c.pso) =
      List.replicate L.length (psoRank p) := by
  induction L with
  | nil => simp [drawRenderItems]
  | cons r rs ih =>
      simp only [drawRenderItems, List.map_cons] at ih ⊢
      simp [ih, List.replicate_succ]

/-- Claim C3: for any contents of the four layer buckets — hence
regardless of registration order — the draw-call sequence emitted by the
Draw phase is ordered Opaque, then AlphaTested, then the tree-sprite
billboards, then Transparent (the sequence of layer ranks is monotone),
and under each layer's pipeline state exactly that layer's items are
drawn, in bucket order. -/
theorem C3_draw_order {ρ : Type} (layer : RenderLayer → List ρ) :
    ((drawFrameA2 layer).map (fun c => psoRank c.pso)).Sorted (· ≤ ·) ∧
    ∀ l : RenderLayer, itemsWithPso (psoOfLayer l) (drawFrameA2 layer) = layer l := by
  constructor
  · simp only [drawFrameA2, List.map_append, ranks_drawRenderItems]
    rw [sorted_le_append, sorted_le_append, sorted_le_append]
    refine ⟨sorted_replicate _ _, ⟨sorted_replicate _ _, ⟨sorted_replicate _ _,
      sorted_replicate _ _, ?_⟩, ?_⟩, ?_⟩
    · intro a ha b hb
      rw [List.eq_of_mem_replicate ha, List.eq_of_mem_replicate hb]
      decide
    · intro a ha b hb
      rw [List.eq_of_mem_replicate ha]
      rcases List.mem_append.mp hb with hb | hb <;>
        (rw [List.eq_of_mem_replicate hb]; decide)
    · intro a ha b hb
      rw [List.eq_of_mem_replicate ha]
      rcases List.mem_append.mp hb with hb | hb
      · rw [List.eq_of_mem_replicate hb]; decide
      · rcases List.mem_append.mp hb with hb | hb <;>
          (rw [List.eq_of_mem_replicate hb]; decide)
  · intro l
    cases l <;>
      simp [drawFrameA2, itemsWithPso_append, itemsWithPso_drawRenderItems, psoOfLayer]

/-! ## Concrete scenes (BuildRenderItems of both apps)

Render items are identified by their constant-buffer slot index together
with the material / geometry / submesh names assigned in the source; the
world and texture transforms (and the topology field) are not inspected
by the claims below and are elided from these records. -/

/-- A render item of TreeBillboardsApp as wired in BuildRenderItems. -/
structure RItem where
  objCBIndex : Nat
  mat : String
  geo : String
  drawArg : String
deriving DecidableEq

/-- The 4 three-part towers (loop at lines 1498-1537); ObjCBIndex values
follow the objIndex++ order: waves got 0 and grid got 1 first. -/
def towersA2 : List RItem :=
  (List.range 4).flatMap (fun i =>
    [{ objCBIndex := 2 + 3 * i, mat := "bricks", geo := "boxGeo", drawArg := "cylinder" },
     { objCBIndex := 3 + 3 * i, mat := "wirefence", geo := "boxGeo", drawArg := "Pyramid_flat_head" },
     { objCBIndex := 4 + 3 * i, mat := "ice", geo := "boxGeo", drawArg := "cone" }])

/-- The wall-fence loop (lines 1543-1596): wall_obj_3 and wall_obj_4 per
iteration (wall_obj_1/wall_obj_2 are commented out in the source). -/
def wallObjsA2 : List RItem :=
  (List.range 4).flatMap (fun i =>
    [{ objCBIndex := 14 + 2 * i, mat := "wirefence", geo := "boxGeo", drawArg := "box" },
     { objCBIndex := 15 + 2 * i, mat := "wirefence", geo := "boxGeo", drawArg := "box" }])

def wavesRitemA2 : RItem :=
  { objCBIndex := 0, mat := "water", geo := "waterGeo", drawArg := "grid" }

def gridRitemA2 : RItem :=
  { objCBIndex := 1, mat := "grass", geo := "landGeo", drawArg := "grid" }

def wallOneA2 : RItem :=
  { objCBIndex := 22, mat := "bricks", geo := "boxGeo", drawArg := "box" }

def wallTwoA2 : RItem :=
  { objCBIndex := 23, mat := "bricks", geo := "boxGeo", drawArg := "box" }

def wallThreeA2 : RItem :=
  { objCBIndex := 24, mat := "bricks", geo := "boxGeo", drawArg := "box" }

def wallFourA2 : RItem :=
  { objCBIndex := 25, mat := "bricks", geo := "boxGeo", drawArg := "box" }

def baseBuildingA2 : RItem :=
  { objCBIndex := 26, mat := "testcolor", geo := "boxGeo", drawArg := "pointed_cylinder" }

def baseRitemA2 : RItem :=
  { objCBIndex := 27, mat := "checkboard", geo := "boxGeo", drawArg := "sphere" }

def gateRitemA2 : RItem :=
  { objCBIndex := 28, mat := "door", geo := "boxGeo", drawArg := "box" }

def treeSpritesRitemA2 : RItem :=
  { objCBIndex := 29, mat := "treeSprites", geo := "treeSpritesGeo", drawArg := "points" }

/-- mAllRitems of TreeBillboardsApp in push order (loop pushes first, then
the block of singles at lines 1700-1710). -/
def mAllRitemsA2 : List RItem :=
  towersA2 ++ wallObjsA2 ++
  [wavesRitemA2, gridRitemA2, gateRitemA2, baseRitemA2, baseBuildingA2,
   wallOneA2, wallTwoA2, wallThreeA2, wallFourA2, treeSpritesRitemA2]

/-- mRitemLayer of TreeBillboardsApp in bucket push order. -/
def mRitemLayerA2 : RenderLayer → List RItem
  | RenderLayer.Transparent => [wavesRitemA2]
  | RenderLayer.Opaque => [gridRitemA2]
  | RenderLayer.AlphaTested =>
      towersA2 ++ wallObjsA2 ++
      [wallOneA2, wallTwoA2, wallThreeA2, wallFourA2,
       baseBuildingA2, baseRitemA2, gateRitemA2]
  | RenderLayer.AlphaTestedTreeSprites => [treeSpritesRitemA2]

/-- A render item of MyCastleApp (all use geometry "shapeGeo"). -/
structure RItemA1 where
  objCBIndex : Nat
  drawArg : String
deriving DecidableEq

/-- mAllRitems of MyCastleApp in push order (BuildRenderItems). -/
def mAllRitemsA1 : List RItemA1 :=
  [{ objCBIndex := 0, drawArg := "grid" }] ++
  (List.range 4).flatMap (fun i =>
    [{ objCBIndex := 1 + 3 * i, drawArg := "cylinder" },
     { objCBIndex := 2 + 3 * i, drawArg := "Pyramid_flat_head" },
     { objCBIndex := 3 + 3 * i, drawArg := "cone" }]) ++
  [{ objCBIndex := 13, drawArg := "box" },
   { objCBIndex := 14, drawArg := "box" },
   { objCBIndex := 15, drawArg := "box" },
   { objCBIndex := 16, drawArg := "box" }] ++
  (List.range 4).flatMap (fun i =>
    [{ objCBIndex := 17 + 4 * i, drawArg := "wedge" },
     { objCBIndex := 18 + 4 * i, drawArg := "Pyramid_pointed_head" },
     { objCBIndex := 19 + 4 * i, drawArg := "box" },
     { objCBIndex := 20 + 4 * i, drawArg := "box" }]) ++
  [{ objCBIndex := 33, drawArg := "pointed_cylinder" },
   { objCBIndex := 34, drawArg := "sphere" },
   { objCBIndex := 35, drawArg := "gate" }]

/-- mOpaqueRitems of MyCastleApp: the final loop copies every item of
mAllRitems into the single opaque bucket. -/
def mOpaqueRitemsA1 : List RItemA1 := mAllRitemsA1

/-- Claim C5: in both apps, after scene assembly every render item is in
exactly one layer bucket and the union of the buckets is exactly the full
render-item list: the concatenated buckets are a permutation of the
(duplicate-free) item list, and distinct buckets share no item. -/
theorem C5_layer_partition :
    ((mRitemLayerA2 RenderLayer.Opaque ++ mRitemLayerA2 RenderLayer.AlphaTested ++
      mRitemLayerA2 RenderLayer.AlphaTestedTreeSprites ++
      mRitemLayerA2 RenderLayer.Transparent).Perm mAllRitemsA2) ∧
    mAllRitemsA2.Nodup ∧
    (∀ l₁ l₂ : RenderLayer, l₁ ≠ l₂ →
      ∀ r ∈ mRitemLayerA2 l₁, r ∉ mRitemLayerA2 l₂) ∧
    mOpaqueRitemsA1.Perm mAllRitemsA1 ∧ mAllRitemsA1.Nodup := by
  refine ⟨by decide, by decide, ?_, by decide, by decide⟩
  intro l₁ l₂ hne
  revert hne
  cases l₁ <;> cases l₂ <;> intro hne <;> first | (exact absurd rfl hne) | decide

/-! ## Descriptor-heap indexing (MyCastleApp::BuildConstantBufferViews and
MyCastleApp::DrawRenderItems) -/

/-- Where a constant-buffer view points: frame resource frameIndex's
object buffer at element objIndex (address base + objIndex * objCBByteSize),
or frame resource frameIndex's pass buffer. -/
inductive CBVTarget
  | obj (frameIndex : Nat) (objIndex : Nat)
  | pass (frameIndex : Nat)
deriving DecidableEq

/-- UINT objCount = (UINT)mOpaqueRitems.size(). -/
def objCountA1 : Nat := mOpaqueRitemsA1.length

/-- mPassCbvOffset = objCount * gNumFrameResources (BuildDescriptorHeaps). -/
def mPassCbvOffsetA1 : Nat := objCountA1 * gNumFrameResources

/-- BuildConstantBufferViews: for every frame resource and every object, a
CBV at heap index frameIndex * objCount + i targeting that frame's object
buffer element i; the last three heap slots hold the per-frame pass CBVs. -/
def buildConstantBufferViewsA1 : List (Nat × CBVTarget) :=
  ((List.range gNumFrameResources).flatMap (fun frameIndex =>
    (List.range objCountA1).map (fun i =>
      (frameIndex * objCountA1 + i, CBVTarget.obj frameIndex i)))) ++
  ((List.range gNumFrameResources).map (fun frameIndex =>
    (mPassCbvOffsetA1 + frameIndex, CBVTarget.pass frameIndex)))

/-- DrawRenderItems: cbvIndex = mCurrFrameResourceIndex * mOpaqueRitems.size()
+ ri->ObjCBIndex. -/
def cbvIndexUsedA1 (currFrameResourceIndex : Nat) (ri : RItemA1) : Nat :=
  currFrameResourceIndex * mOpaqueRitemsA1.length + ri.objCBIndex

/-- Claim C8: for every ring slot and every render item drawn, the heap
index bound for the item's object constants is ring_slot * item_count +
item_slot_index, and the constant-buffer view created at that heap index
at startup targets exactly (that ring slot's object buffer, that item's
element) — each draw call reads the current slot's constants for that
item. -/
theorem C8_descriptor_index (f : Fin 3) (ri : RItemA1) (hri : ri ∈ mOpaqueRitemsA1) :
    cbvIndexUsedA1 f.val ri = f.val * objCountA1 + ri.objCBIndex ∧
    List.lookup (cbvIndexUsedA1 f.val ri) buildConstantBufferViewsA1 =
      some (CBVTarget.obj f.val ri.objCBIndex) := by
  revert hri
  revert ri
  revert f
  decide

/-- Witness for C8: ring slot 1 and the castle gate item (ObjCBIndex 35). -/
theorem C8_descriptor_index_witness :
    cbvIndexUsedA1 (1 : Fin 3).val { objCBIndex := 35, drawArg := "gate" } =
      (1 : Fin 3).val * objCountA1 + 35 ∧
    List.lookup (cbvIndexUsedA1 (1 : Fin 3).val { objCBIndex := 35, drawArg := "gate" })
        buildConstantBufferViewsA1 =
      some (CBVTarget.obj (1 : Fin 3).val 35) :=
  C8_descriptor_index 1 { objCBIndex := 35, drawArg := "gate" } (by decide)

/-! ## Dynamic wave geometry (BuildWavesGeometry, UpdateWaves) -/

/-- SubmeshGeometry: a contiguous range into a shared index/vertex buffer. -/
structure Submesh where
  IndexCount : Nat
  StartIndexLocation : Nat
  BaseVertexLocation : Nat
deriving DecidableEq

structure Vec3 where
  x : ℚ
  y : ℚ
  z : ℚ
deriving DecidableEq

structure Vec2 where
  x : ℚ
  y : ℚ
deriving DecidableEq

/-- The standard vertex layout (position, normal, texture coordinates). -/
structure Vertex where
  Pos : Vec3
  Normal : Vec3
  TexC : Vec2
deriving DecidableEq

/-- Reduce a ring index to a slot identifier. -/
def fin3 (n : Nat) : Fin 3 := ⟨n % 3, Nat.mod_lt _ (by omega)⟩

/-- Modelled from the spec: the wave simulation interface (the repository's
Waves class, Waves.h/Waves.cpp, which is not under src/).  Only the
interface UpdateWaves consumes is kept: a simulation state giving each
vertex a position and a normal, Disturb(i, j, r), Update(dt), the fixed
horizontal extents Width() and Depth(), and VertexCount(). -/
structure WavesModel where
  vertexCount : Nat
  width : ℚ
  depth : ℚ
  State : Type
  position : State → Nat → Vec3
  normal : State → Nat → Vec3
  disturb : Nat → Nat → ℚ → State → State
  integrate : ℚ → State → State

/-- One frame's wave inputs: the disturbance fired this frame by the
0.25-second cadence (if any), and the frame's delta time. -/
structure WaveFrameInput where
  disturbEvent : Option (Nat × Nat × ℚ)
  dt : ℚ

/-- One simulation step as UpdateWaves performs it: the scheduled
disturbance (if any), then Update(dt). -/
def stepWaves (W : WavesModel) (inp : WaveFrameInput) (st : W.State) : W.State :=
  W.integrate inp.dt
    (match inp.disturbEvent with
     | none => st
     | some (i, j, r) => W.disturb i j r st)

/-- Integrating the initial state over a whole disturbance schedule. -/
def simState (W : WavesModel) (st : W.State) : List WaveFrameInput → W.State
  | [] => st
  | inp :: rest => simState W (stepWaves W inp st) rest

/-- The vertex UpdateWaves writes for index i: position and normal from
the simulation, texture coordinates derived from the position by mapping
the horizontal extent to [0,1]
(TexC.x = 0.5 + x / Width(), TexC.y = 0.5 - z / Depth()). -/
def waveVertex (W : WavesModel) (st : W.State) (i : Nat) : Vertex :=
  let p := W.position st i
  { Pos := p
  , Normal := W.normal st i
  , TexC := { x := 1/2 + p.x / W.width, y := 1/2 - p.z / W.depth } }

/-- The loop in UpdateWaves: CopyData(i, v) for every wave vertex into the
current frame resource's WavesVB. -/
def writeWaveVB (W : WavesModel) (st : W.State) (cb : Nat → Option Vertex) :
    Nat → Option Vertex :=
  (List.range W.vertexCount).foldl (fun c i => copyData c i (waveVertex W st i)) cb

/-- The application state UpdateWaves touches: the ring index, each frame
resource's dynamic wave vertex buffer, the waterGeo geometry record, and
the simulation state.  The geometry's GPU vertex buffer handle is the
identity of the slot buffer it points at (none before the first frame:
BuildWavesGeometry sets it dynamically). -/
structure WavesAppState (W : WavesModel) where
  currFrameResourceIndex : Nat
  slotWavesVB : Fin 3 → Nat → Option Vertex
  geoIndexBufferCPU : List Nat
  geoVertexByteStride : Nat
  geoIndexFormat : String
  geoDrawArgs : List (String × Submesh)
  geoVertexBufferGPU : Option (Fin 3)
  waves : W.State

/-- TreeBillboardsApp::UpdateWaves (lines 511-549): fire the scheduled
disturbance, integrate one step, write every wave vertex into the current
slot's dynamic vertex buffer, and repoint the geometry's GPU vertex
buffer handle at that slot's buffer. -/
def updateWaves (W : WavesModel) (inp : WaveFrameInput) (s : WavesAppState W) :
    WavesAppState W :=
  let st2 := stepWaves W inp s.waves
  let idx := fin3 s.currFrameResourceIndex
  { s with
    waves := st2
    slotWavesVB := fun f =>
      if f = idx then writeWaveVB W st2 (s.slotWavesVB f) else s.slotWavesVB f
    geoVertexBufferGPU := some idx }

/-- One frame as Update runs it: advance the ring index, then UpdateWaves
against the newly selected slot. -/
def wavesFrame (W : WavesModel) (inp : WaveFrameInput) (s : WavesAppState W) :
    WavesAppState W :=
  updateWaves W inp
    { s with currFrameResourceIndex :=
        (s.currFrameResourceIndex + 1) % gNumFrameResources }

/-- Run consecutive frames over a disturbance schedule. -/
def runWavesFrames (W : WavesModel) :
    WavesAppState W → List WaveFrameInput → WavesAppState W
  | s, [] => s
  | s, inp :: rest => runWavesFrames W (wavesFrame W inp s) rest

lemma foldl_copy_range {β : Type} (g : Nat → β) (n : Nat) (cb : Nat → Option β)
    (i : Nat) :
    ((List.range n).foldl (fun c j => copyData c j (g j)) cb) i =
      if i < n then some (g i) else cb i := by
  induction n with
  | zero => simp
  | succ k ih =>
      rw [List.range_succ, List.foldl_append]
      simp only [List.foldl_cons, List.foldl_nil]
      by_cases h : i = k
      · subst h
        simp [copyData]
      · simp only [copyData, if_neg h, ih]
        by_cases hk : i < k
        · rw [if_pos hk, if_pos (by omega)]
        · rw [if_neg hk, if_neg (by omega)]

lemma writeWaveVB_spec (W : WavesModel) (st : W.State) (cb : Nat → Option Vertex)
    (i : Nat) :
    writeWaveVB W st cb i =
      if i < W.vertexCount then some (waveVertex W st i) else cb i :=
  foldl_copy_range _ _ _ _

lemma fin3_mod (a : Nat) : fin3 (a % 3) = fin3 a := by
  unfold fin3
  exact Fin.ext (by simp [Nat.mod_mod_of_dvd, Nat.mod_mod])

lemma updateWaves_spec (W : WavesModel) (inp : WaveFrameInput)
    (s : WavesAppState W) :
    (updateWaves W inp s).currFrameResourceIndex = s.currFrameResourceIndex ∧
    (updateWaves W inp s).waves = stepWaves W inp s.waves ∧
    (updateWaves W inp s).geoVertexBufferGPU =
      some (fin3 s.currFrameResourceIndex) ∧
    (∀ i, i < W.vertexCount →
      (updateWaves W inp s).slotWavesVB (fin3 s.currFrameResourceIndex) i =
        some (waveVertex W (stepWaves W inp s.waves) i)) ∧
    (∀ f, f ≠ fin3 s.currFrameResourceIndex →
      (updateWaves W inp s).slotWavesVB f = s.slotWavesVB f) ∧
    (updateWaves W inp s).geoIndexBufferCPU = s.geoIndexBufferCPU ∧
    (updateWaves W inp s).geoIndexFormat = s.geoIndexFormat ∧
    (updateWaves W inp s).geoVertexByteStride = s.geoVertexByteStride ∧
    (updateWaves W inp s).geoDrawArgs = s.geoDrawArgs := by
  refine ⟨rfl, rfl, rfl, ?_, ?_, rfl, rfl, rfl, rfl⟩
  · intro i hi
    have hvb : (updateWaves W inp s).slotWavesVB (fin3 s.currFrameResourceIndex) =
        writeWaveVB W (stepWaves W inp s.waves)
          (s.slotWavesVB (fin3 s.currFrameResourceIndex)) := by
      simp [updateWaves]
    rw [hvb, writeWaveVB_spec, if_pos hi]
  · intro f hf
    simp [updateWaves, hf]

/-- Claim C7: UpdateWaves replaces only the vertex payload: it writes
every wave vertex into the current slot's dynamic vertex buffer and
repoints the geometry's GPU vertex buffer handle there, while the
geometry's index buffer, index format, vertex stride and submesh table,
and every other slot's buffer, are left unchanged. -/
theorem C7_rebuild_only_vertices (W : WavesModel) (inp : WaveFrameInput)
    (s : WavesAppState W) :
    (updateWaves W inp s).geoIndexBufferCPU = s.geoIndexBufferCPU ∧
    (updateWaves W inp s).geoIndexFormat = s.geoIndexFormat ∧
    (updateWaves W inp s).geoVertexByteStride = s.geoVertexByteStride ∧
    (updateWaves W inp s).geoDrawArgs = s.geoDrawArgs ∧
    (updateWaves W inp s).geoVertexBufferGPU =
      some (fin3 s.currFrameResourceIndex) ∧
    (∀ i, i < W.vertexCount →
      (updateWaves W inp s).slotWavesVB (fin3 s.currFrameResourceIndex) i =
        some (waveVertex W ((updateWaves W inp s).waves) i)) ∧
    (∀ f, f ≠ fin3 s.currFrameResourceIndex →
      (updateWaves W inp s).slotWavesVB f = s.slotWavesVB f) := by
  obtain ⟨h1, h2, h3, h4, h5, h6, h7, h8, h9⟩ := updateWaves_spec W inp s
  refine ⟨h6, h7, h8, h9, h3, ?_, h5⟩
  intro i hi
  rw [h2]
  exact h4 i hi

/-- A concrete instance of the wave-simulation interface used by the
witnesses: state is a single rational, two vertices. -/
def demoWaves : WavesModel :=
  { vertexCount := 2
  , width := 4
  , depth := 4
  , State := ℚ
  , position := fun st i => { x := st + i, y := 0, z := st }
  , normal := fun _ _ => { x := 0, y := 1, z := 0 }
  , disturb := fun _ _ r st => st + r
  , integrate := fun dt st => st + dt }

/-- A concrete initial application state for the witnesses, mirroring the
post-BuildWavesGeometry situation: ring index 0, nothing written yet,
GPU vertex buffer handle not yet assigned. -/
def demoWavesState : WavesAppState demoWaves :=
  { currFrameResourceIndex := 0
  , slotWavesVB := fun _ _ => none
  , geoIndexBufferCPU := [0, 1, 2]
  , geoVertexByteStride := 32
  , geoIndexFormat := "R16_UINT"
  , geoDrawArgs := [("grid", { IndexCount := 3, StartIndexLocation := 0, BaseVertexLocation := 0 })]
  , geoVertexBufferGPU := none
  , waves := (0 : ℚ) }

/-- Witness for C7 at the concrete instance: the rebuilt slot holds the
new vertex 0. -/
theorem C7_rebuild_only_vertices_witness :
    (updateWaves demoWaves { disturbEvent := none, dt := 1 } demoWavesState).slotWavesVB
        (fin3 demoWavesState.currFrameResourceIndex) 0 =
      some (waveVertex demoWaves
        ((updateWaves demoWaves { disturbEvent := none, dt := 1 } demoWavesState).waves) 0) :=
  (C7_rebuild_only_vertices demoWaves { disturbEvent := none, dt := 1 }
    demoWavesState).2.2.2.2.2.1 0 (by norm_num [demoWaves])

/-- Counterexample to C4 as stated: the ring index starts at 0 and Update
advances it before use, so the first frame runs against slot 1, not
slot 0 — the handle sequence is 1, 2, 0, 1, ... rather than 0, 1, 2, 0. -/
theorem C4_counterexample :
    (runWavesFrames demoWaves demoWavesState
        [{ disturbEvent := none, dt := 1 }]).geoVertexBufferGPU = some (fin3 1) ∧
    some (fin3 1) ≠ some (fin3 0) := by
  constructor
  · rfl
  · decide

/-- Claim C4 (amended: after frame K the active handle is slot K mod 3,
so with the source's initial ring index 0 the cycle is 1, 2, 0, 1, ...):
running any nonempty schedule of K frames, the dynamic wave geometry's
GPU vertex buffer handle points at ring slot (start + K) mod 3, the
simulation state is the K-fold integration of the initial state under
that schedule, and the current slot's buffer holds exactly the vertices
(position, normal, extent-mapped texture coordinates) of that state. -/
theorem C4_wave_ring (W : WavesModel) (s : WavesAppState W)
    (L : List WaveFrameInput) (hL : L ≠ []) :
    (runWavesFrames W s L).currFrameResourceIndex =
      (s.currFrameResourceIndex + L.length) % 3 ∧
    (runWavesFrames W s L).geoVertexBufferGPU =
      some (fin3 (s.currFrameResourceIndex + L.length)) ∧
    (runWavesFrames W s L).waves = simState W s.waves L ∧
    ∀ i, i < W.vertexCount →
      (runWavesFrames W s L).slotWavesVB
          (fin3 (s.currFrameResourceIndex + L.length)) i =
        some (waveVertex W (simState W s.waves L) i) := by
  induction L generalizing s with
  | nil => exact absurd rfl hL
  | cons inp rest ih =>
      have hs1 := updateWaves_spec W inp
        { s with currFrameResourceIndex :=
            (s.currFrameResourceIndex + 1) % gNumFrameResources }
      have hidx1 : (wavesFrame W inp s).currFrameResourceIndex =
          (s.currFrameResourceIndex + 1) % 3 := hs1.1
      have hfin : fin3 ((s.currFrameResourceIndex + 1) % 3) =
          fin3 (s.currFrameResourceIndex + 1) := fin3_mod _
      rcases eq_or_ne rest [] with hrest | hrest
      · subst hrest
        refine ⟨?_, ?_, ?_, ?_⟩
        · show (wavesFrame W inp s).currFrameResourceIndex =
            (s.currFrameResourceIndex + 1) % 3
          exact hidx1
        · show (wavesFrame W inp s).geoVertexBufferGPU =
            some (fin3 (s.currFrameResourceIndex + 1))
          rw [← hfin]
          exact hs1.2.2.1
        · exact hs1.2.1
        · intro i hi
          show (wavesFrame W inp s).slotWavesVB
              (fin3 (s.currFrameResourceIndex + 1)) i =
            some (waveVertex W (simState W s.waves [inp]) i)
          rw [← hfin]
          exact hs1.2.2.2.1 i hi
      · have h1 := ih (wavesFrame W inp s) hrest
        have hmod : ((wavesFrame W inp s).currFrameResourceIndex + rest.length) % 3 =
            (s.currFrameResourceIndex + (inp :: rest).length) % 3 := by
          rw [hidx1]
          simp only [List.length_cons]
          omega
        have hkey : fin3 ((wavesFrame W inp s).currFrameResourceIndex + rest.length) =
            fin3 (s.currFrameResourceIndex + (inp :: rest).length) :=
          Fin.ext hmod
        refine ⟨?_, ?_, ?_, ?_⟩
        · show (runWavesFrames W (wavesFrame W inp s) rest).currFrameResourceIndex = _
          rw [h1.1]
          exact hmod
        · show (runWavesFrames W (wavesFrame W inp s) rest).geoVertexBufferGPU = _
          rw [h1.2.1, hkey]
        · show (runWavesFrames W (wavesFrame W inp s) rest).waves = _
          exact h1.2.2.1
        · intro i hi
          show (runWavesFrames W (wavesFrame W inp s) rest).slotWavesVB
              (fin3 (s.currFrameResourceIndex + (inp :: rest).length)) i = _
          rw [← hkey]
          exact h1.2.2.2 i hi

/-- Witness for C4: two frames of the concrete instance land the handle
on slot 2 with the twice-integrated state in its buffer. -/
theorem C4_wave_ring_witness :
    (runWavesFrames demoWaves demoWavesState
        [{ disturbEvent := none, dt := 1 },
         { disturbEvent := some (1, 1, 2), dt := 1 }]).geoVertexBufferGPU =
      some (fin3 (demoWavesState.currFrameResourceIndex + 2)) :=
  (C4_wave_ring demoWaves demoWavesState
    [{ disturbEvent := none, dt := 1 }, { disturbEvent := some (1, 1, 2), dt := 1 }]
    (by simp)).2.1

/-! ## Dirty constant propagation (AnimateMaterials, UpdateObjectCBs,
UpdateMaterialCBs of TreeBillboardsApp) -/

/-- ObjectConstants: the per-item constant block (transposed transforms). -/
structure ObjectConstants where
  World : Mat4
  TexTransform : Mat4

/-- The RenderItem fields the update phase reads and writes. -/
structure RenderItemState where
  World : Mat4
  TexTransform : Mat4
  NumFramesDirty : Int
  ObjCBIndex : Nat

/-- The constant block UpdateObjectCBs copies for a render item:
XMMatrixTranspose of World and of TexTransform. -/
def objectConstantsOf (e : RenderItemState) : ObjectConstants :=
  { World := transpose4 e.World, TexTransform := transpose4 e.TexTransform }

/-- The Material fields the update phase reads and writes. -/
structure MaterialState where
  Name : String
  MatCBIndex : Nat
  DiffuseAlbedo : Fin 4 → ℚ
  FresnelR0 : Fin 3 → ℚ
  Roughness : ℚ
  MatTransform : Mat4
  NumFramesDirty : Int

/-- MaterialConstants: the per-material constant block. -/
structure MaterialConstants where
  DiffuseAlbedo : Fin 4 → ℚ
  FresnelR0 : Fin 3 → ℚ
  Roughness : ℚ
  MatTransform : Mat4

/-- The constant block UpdateMaterialCBs copies for a material. -/
def materialConstantsOf (m : MaterialState) : MaterialConstants :=
  { DiffuseAlbedo := m.DiffuseAlbedo
  , FresnelR0 := m.FresnelR0
  , Roughness := m.Roughness
  , MatTransform := transpose4 m.MatTransform }

/-- Accessors of an entity kind carrying a dirty counter, a fixed
constant-buffer slot index and a derived constant block.  UpdateObjectCBs
and UpdateMaterialCBs run the same loop body over render items and
materials; the three laws record that setting the counter changes
nothing else the loop reads. -/
structure DirtyAccess (ε β : Type) where
  dirty : ε → Int
  setDirty : ε → Int → ε
  index : ε → Nat
  constOf : ε → β
  index_setDirty : ∀ e d, index (setDirty e d) = index e
  constOf_setDirty : ∀ e d, constOf (setDirty e d) = constOf e
  dirty_setDirty : ∀ e d, dirty (setDirty e d) = d

/-- The per-entity effect of one pass: decrement the counter when it is
positive, otherwise leave the entity alone. -/
def stepEntity {ε β : Type} (A : DirtyAccess ε β) (e : ε) : ε :=
  if 0 < A.dirty e then A.setDirty e (A.dirty e - 1) else e

/-- The loop of UpdateObjectCBs / UpdateMaterialCBs: for each entity in
order, when its dirty counter is positive copy its constant block into
the current slot's buffer at its index and decrement the counter. -/
def updateCBs {ε β : Type} (A : DirtyAccess ε β) :
    List ε → (Nat → Option β) → List ε × (Nat → Option β)
  | [], cb => ([], cb)
  | e :: rest, cb =>
      let p : ε × (Nat → Option β) :=
        if 0 < A.dirty e then
          (A.setDirty e (A.dirty e - 1), copyData cb (A.index e) (A.constOf e))
        else (e, cb)
      let q := updateCBs A rest p.2
      (p.1 :: q.1, q.2)

lemma index_stepEntity {ε β : Type} (A : DirtyAccess ε β) (e : ε) :
    A.index (stepEntity A e) = A.index e := by
  unfold stepEntity
  split
  · exact A.index_setDirty _ _
  · rfl

lemma constOf_stepEntity {ε β : Type} (A : DirtyAccess ε β) (e : ε) :
    A.constOf (stepEntity A e) = A.constOf e := by
  unfold stepEntity
  split
  · exact A.constOf_setDirty _ _
  · rfl

lemma dirty_stepEntity {ε β : Type} (A : DirtyAccess ε β) (e : ε) :
    A.dirty (stepEntity A e) =
      if 0 < A.dirty e then A.dirty e - 1 else A.dirty e := by
  unfold stepEntity
  by_cases h : 0 < A.dirty e
  · simp [h, A.dirty_setDirty]
  · simp [h]

lemma updateCBs_fst {ε β : Type} (A : DirtyAccess ε β) (l : List ε) :
    ∀ cb, (updateCBs A l cb).1 = l.map (stepEntity A) := by
  induction l with
  | nil => intro cb; rfl
  | cons e rest ih =>
      intro cb
      simp only [updateCBs, List.map_cons]
      by_cases h : 0 < A.dirty e
      · simp only [if_pos h, stepEntity, ih]
      · simp only [if_neg h, stepEntity, ih]

lemma updateCBs_snd_nowrite {ε β : Type} (A : DirtyAccess ε β) (l : List ε)
    (cb : Nat → Option β) (k : Nat)
    (h : ∀ x ∈ l, A.index x = k → A.dirty x ≤ 0) :
    (updateCBs A l cb).2 k = cb k := by
  induction l generalizing cb with
  | nil => rfl
  | cons e rest ih =>
      simp only [updateCBs]
      by_cases hd : 0 < A.dirty e
      · have hne : A.index e ≠ k := by
          intro hk
          exact absurd (h e (by simp) hk) (by omega)
        have hkne : k ≠ A.index e := fun hk => hne hk.symm
        simp only [if_pos hd]
        rw [ih _ (fun x hx => h x (by simp [hx]))]
        simp [copyData, hkne]
      · simp only [if_neg hd]
        exact ih _ (fun x hx => h x (by simp [hx]))

lemma updateCBs_snd_other {ε β : Type} (A : DirtyAccess ε β) (l : List ε)
    (cb : Nat → Option β) (k : Nat)
    (h : ∀ x ∈ l, A.index x ≠ k) :
    (updateCBs A l cb).2 k = cb k := by
  induction l generalizing cb with
  | nil => rfl
  | cons e rest ih =>
      simp only [updateCBs]
      by_cases hd : 0 < A.dirty e
      · have hkne : k ≠ A.index e := fun hk => h e (by simp) hk.symm
        simp only [if_pos hd]
        rw [ih _ (fun x hx => h x (by simp [hx]))]
        simp [copyData, hkne]
      · simp only [if_neg hd]
        exact ih _ (fun x hx => h x (by simp [hx]))

lemma updateCBs_snd_write {ε β : Type} (A : DirtyAccess ε β) (e : ε)
    (hd : 0 < A.dirty e) :
    ∀ (l : List ε) (cb : Nat → Option β), e ∈ l → (l.map A.index).Nodup →
      (updateCBs A l cb).2 (A.index e) = some (A.constOf e) := by
  intro l
  induction l with
  | nil => intro cb he _; exact absurd he (List.not_mem_nil e)
  | cons x rest ih =>
      intro cb he hnd
      simp only [List.map_cons, List.nodup_cons] at hnd
      rcases List.mem_cons.mp he with rfl | hmem
      · simp only [updateCBs, if_pos hd]
        rw [updateCBs_snd_other A rest _ (A.index e)
          (fun y hy hk => hnd.1 (hk ▸ List.mem_map_of_mem A.index hy))]
        simp [copyData]
      · simp only [updateCBs]
        by_cases hx : 0 < A.dirty x
        · simp only [if_pos hx]
          exact ih _ hmem hnd.2
        · simp only [if_neg hx]
          exact ih _ hmem hnd.2

lemma updateCBs_map_index {ε β : Type} (A : DirtyAccess ε β) (l : List ε) :
    (l.map (stepEntity A)).map A.index = l.map A.index := by
  rw [List.map_map]
  exact List.map_congr_left (fun e _ => index_stepEntity A e)

/-- The accessor instance for render items: UpdateObjectCBs reads
NumFramesDirty, writes at ObjCBIndex, copies the transposed transforms. -/
def objAccess : DirtyAccess RenderItemState ObjectConstants :=
  { dirty := fun e => e.NumFramesDirty
  , setDirty := fun e d => { e with NumFramesDirty := d }
  , index := fun e => e.ObjCBIndex
  , constOf := objectConstantsOf
  , index_setDirty := fun _ _ => rfl
  , constOf_setDirty := fun _ _ => rfl
  , dirty_setDirty := fun _ _ => rfl }

/-- The accessor instance for materials: UpdateMaterialCBs reads
NumFramesDirty, writes at MatCBIndex, copies the material constants. -/
def matAccess : DirtyAccess MaterialState MaterialConstants :=
  { dirty := fun m => m.NumFramesDirty
  , setDirty := fun m d => { m with NumFramesDirty := d }
  , index := fun m => m.MatCBIndex
  , constOf := materialConstantsOf
  , index_setDirty := fun _ _ => rfl
  , constOf_setDirty := fun _ _ => rfl
  , dirty_setDirty := fun _ _ => rfl }

/-- TreeBillboardsApp::AnimateMaterials body for the water material:
scroll MatTransform(3,0) by 0.1 * dt and MatTransform(3,1) by 0.02 * dt,
wrap either coordinate down by 1 on reaching 1, and mark the material
dirty for all ring slots (NumFramesDirty = gNumFrameResources). -/
def animateWater (dt : ℚ) (m : MaterialState) : MaterialState :=
  let tu := m.MatTransform 3 0 + (1/10) * dt
  let tv := m.MatTransform 3 1 + (1/50) * dt
  let tu2 := if 1 ≤ tu then tu - 1 else tu
  let tv2 := if 1 ≤ tv then tv - 1 else tv
  { m with
    MatTransform := fun i j =>
      if i = 3 ∧ j = 0 then tu2
      else if i = 3 ∧ j = 1 then tv2
      else m.MatTransform i j
    NumFramesDirty := (gNumFrameResources : Int) }

/-- The per-material effect of AnimateMaterials: only the material named
"water" (mMaterials["water"]) is scrolled and re-marked dirty. -/
def animateBranch (dt : ℚ) (m : MaterialState) : MaterialState :=
  if m.Name = "water" then animateWater dt m else m

/-- TreeBillboardsApp::AnimateMaterials: mutates exactly the material
named "water". -/
def animateMaterials (dt : ℚ) (ms : List MaterialState) : List MaterialState :=
  ms.map (animateBranch dt)

/-- The application state the update phase reads and writes each frame. -/
structure UpdateState where
  currFrameResourceIndex : Nat
  mAllRitems : List RenderItemState
  mMaterials : List MaterialState
  objCB : Fin 3 → Nat → Option ObjectConstants
  matCB : Fin 3 → Nat → Option MaterialConstants

/-- One frame of TreeBillboardsApp::Update as it affects object and
material constants: advance the ring index, AnimateMaterials, then
UpdateObjectCBs and UpdateMaterialCBs against the selected slot's
buffers. -/
def updateFrame (dt : ℚ) (s : UpdateState) : UpdateState :=
  let idx := (s.currFrameResourceIndex + 1) % gNumFrameResources
  let f := fin3 idx
  let ms1 := animateMaterials dt s.mMaterials
  let po := updateCBs objAccess s.mAllRitems (s.objCB f)
  let pm := updateCBs matAccess ms1 (s.matCB f)
  { currFrameResourceIndex := idx
  , mAllRitems := po.1
  , mMaterials := pm.1
  , objCB := fun g => if g = f then po.2 else s.objCB g
  , matCB := fun g => if g = f then pm.2 else s.matCB g }

lemma fin3_gN (n : Nat) : fin3 (n % gNumFrameResources) = fin3 n := by
  simp only [gNumFrameResources]
  exact fin3_mod n

lemma updateFrame_index (dt : ℚ) (s : UpdateState) :
    (updateFrame dt s).currFrameResourceIndex =
      (s.currFrameResourceIndex + 1) % 3 := rfl

lemma updateFrame_items (dt : ℚ) (s : UpdateState) :
    (updateFrame dt s).mAllRitems = s.mAllRitems.map (stepEntity objAccess) :=
  updateCBs_fst objAccess s.mAllRitems _

lemma updateFrame_mats (dt : ℚ) (s : UpdateState) :
    (updateFrame dt s).mMaterials =
      (animateMaterials dt s.mMaterials).map (stepEntity matAccess) :=
  updateCBs_fst matAccess _ _

lemma updateFrame_objCB_curr (dt : ℚ) (s : UpdateState) :
    (updateFrame dt s).objCB (fin3 (s.currFrameResourceIndex + 1)) =
      (updateCBs objAccess s.mAllRitems
        (s.objCB (fin3 (s.currFrameResourceIndex + 1)))).2 := by
  simp [updateFrame, fin3_gN]

lemma updateFrame_objCB_other (dt : ℚ) (s : UpdateState) (g : Fin 3)
    (hg : g ≠ fin3 (s.currFrameResourceIndex + 1)) :
    (updateFrame dt s).objCB g = s.objCB g := by
  simp [updateFrame, fin3_gN, hg]

lemma updateFrame_matCB_curr (dt : ℚ) (s : UpdateState) :
    (updateFrame dt s).matCB (fin3 (s.currFrameResourceIndex + 1)) =
      (updateCBs matAccess (animateMaterials dt s.mMaterials)
        (s.matCB (fin3 (s.currFrameResourceIndex + 1)))).2 := by
  simp [updateFrame, fin3_gN]

lemma updateFrame_matCB_other (dt : ℚ) (s : UpdateState) (g : Fin 3)
    (hg : g ≠ fin3 (s.currFrameResourceIndex + 1)) :
    (updateFrame dt s).matCB g = s.matCB g := by
  simp [updateFrame, fin3_gN, hg]

lemma animateBranch_index (dt : ℚ) (m : MaterialState) :
    (animateBranch dt m).MatCBIndex = m.MatCBIndex := by
  by_cases h : m.Name = "water" <;> simp [animateBranch, animateWater, h]

lemma animateBranch_nonwater (dt : ℚ) (m : MaterialState) (h : m.Name ≠ "water") :
    animateBranch dt m = m := if_neg h

lemma animateMaterials_map_index (dt : ℚ) (ms : List MaterialState) :
    (animateMaterials dt ms).map (fun m => m.MatCBIndex) =
      ms.map (fun m => m.MatCBIndex) := by
  unfold animateMaterials
  rw [List.map_map]
  refine List.map_congr_left (fun m _ => ?_)
  exact animateBranch_index dt m

lemma updateFrame_items_map_index (dt : ℚ) (s : UpdateState) :
    ((updateFrame dt s).mAllRitems).map (fun e => e.ObjCBIndex) =
      s.mAllRitems.map (fun e => e.ObjCBIndex) := by
  rw [updateFrame_items]
  exact updateCBs_map_index objAccess s.mAllRitems

lemma updateFrame_mats_map_index (dt : ℚ) (s : UpdateState) :
    ((updateFrame dt s).mMaterials).map (fun m => m.MatCBIndex) =
      s.mMaterials.map (fun m => m.MatCBIndex) := by
  rw [updateFrame_mats]
  have h1 : ((animateMaterials dt s.mMaterials).map (stepEntity matAccess)).map
        (fun m => m.MatCBIndex) =
      (animateMaterials dt s.mMaterials).map (fun m => m.MatCBIndex) :=
    updateCBs_map_index matAccess _
  rw [h1, animateMaterials_map_index]

lemma mem_animateMaterials_nonwater (dt : ℚ) (ms : List MaterialState)
    (m : MaterialState) (hm : m ∈ ms) (h : m.Name ≠ "water") :
    m ∈ animateMaterials dt ms := by
  unfold animateMaterials
  have hmem := List.mem_map_of_mem (animateBranch dt) hm
  rwa [animateBranch_nonwater dt m h] at hmem

lemma updateFrame_objCB_write (dt : ℚ) (s : UpdateState) (e : RenderItemState)
    (he : e ∈ s.mAllRitems) (hd : 0 < e.NumFramesDirty)
    (hnd : (s.mAllRitems.map (fun x => x.ObjCBIndex)).Nodup) :
    (updateFrame dt s).objCB (fin3 (s.currFrameResourceIndex + 1)) e.ObjCBIndex =
      some (objectConstantsOf e) := by
  rw [updateFrame_objCB_curr]
  exact updateCBs_snd_write objAccess e hd _ _ he hnd

lemma updateFrame_matCB_write (dt : ℚ) (s : UpdateState) (x : MaterialState)
    (hx : x ∈ animateMaterials dt s.mMaterials) (hd : 0 < x.NumFramesDirty)
    (hnd : (s.mMaterials.map (fun m => m.MatCBIndex)).Nodup) :
    (updateFrame dt s).matCB (fin3 (s.currFrameResourceIndex + 1)) x.MatCBIndex =
      some (materialConstantsOf x) := by
  rw [updateFrame_matCB_curr]
  refine updateCBs_snd_write matAccess x hd _ _ hx ?_
  show ((animateMaterials dt s.mMaterials).map (fun m => m.MatCBIndex)).Nodup
  rw [animateMaterials_map_index]
  exact hnd

lemma updateFrame_objCB_nowrite (dt : ℚ) (s : UpdateState) (k : Nat)
    (h : ∀ x ∈ s.mAllRitems, x.ObjCBIndex = k → x.NumFramesDirty ≤ 0) :
    (updateFrame dt s).objCB (fin3 (s.currFrameResourceIndex + 1)) k =
      s.objCB (fin3 (s.currFrameResourceIndex + 1)) k := by
  rw [updateFrame_objCB_curr]
  exact updateCBs_snd_nowrite objAccess s.mAllRitems _ k h

lemma updateFrame_matCB_nowrite (dt : ℚ) (s : UpdateState) (k : Nat)
    (h : ∀ x ∈ animateMaterials dt s.mMaterials,
      x.MatCBIndex = k → x.NumFramesDirty ≤ 0) :
    (updateFrame dt s).matCB (fin3 (s.currFrameResourceIndex + 1)) k =
      s.matCB (fin3 (s.currFrameResourceIndex + 1)) k := by
  rw [updateFrame_matCB_curr]
  exact updateCBs_snd_nowrite matAccess _ _ k h

lemma step_obj_World (x : RenderItemState) :
    (stepEntity objAccess x).World = x.World := by
  unfold stepEntity; split <;> rfl

lemma step_obj_Tex (x : RenderItemState) :
    (stepEntity objAccess x).TexTransform = x.TexTransform := by
  unfold stepEntity; split <;> rfl

lemma step_obj_index (x : RenderItemState) :
    (stepEntity objAccess x).ObjCBIndex = x.ObjCBIndex :=
  index_stepEntity objAccess x

lemma step_obj_const (x : RenderItemState) :
    objectConstantsOf (stepEntity objAccess x) = objectConstantsOf x :=
  constOf_stepEntity objAccess x

lemma step_obj_dirty (x : RenderItemState) :
    (stepEntity objAccess x).NumFramesDirty =
      if 0 < x.NumFramesDirty then x.NumFramesDirty - 1 else x.NumFramesDirty :=
  dirty_stepEntity objAccess x

lemma step_mat_Name (x : MaterialState) :
    (stepEntity matAccess x).Name = x.Name := by
  unfold stepEntity; split <;> rfl

lemma step_mat_index (x : MaterialState) :
    (stepEntity matAccess x).MatCBIndex = x.MatCBIndex :=
  index_stepEntity matAccess x

lemma step_mat_const (x : MaterialState) :
    materialConstantsOf (stepEntity matAccess x) = materialConstantsOf x :=
  constOf_stepEntity matAccess x

lemma step_mat_dirty (x : MaterialState) :
    (stepEntity matAccess x).NumFramesDirty =
      if 0 < x.NumFramesDirty then x.NumFramesDirty - 1 else x.NumFramesDirty :=
  dirty_stepEntity matAccess x

lemma fin3_ne (a b : Nat) (h : a % 3 ≠ b % 3) : fin3 a ≠ fin3 b :=
  fun hf => h (congrArg Fin.val hf)

lemma fin3_cover (c : Nat) (f : Fin 3) :
    f = fin3 (c + 1) ∨ f = fin3 (c + 2) ∨ f = fin3 (c + 3) := by
  have hval := f.isLt
  have h : f.val = (c + 1) % 3 ∨ f.val = (c + 2) % 3 ∨ f.val = (c + 3) % 3 := by
    omega
  rcases h with h | h | h
  · exact Or.inl (Fin.ext h)
  · exact Or.inr (Or.inl (Fin.ext h))
  · exact Or.inr (Or.inr (Fin.ext h))

/-- Claim C2: after exactly 3 consecutive update frames following a
single mutation that set an entity's dirty counter to 3 (ring depth),
with no further edits of that entity, the entity's constant data in
every one of the 3 ring slots equals the mutated value and its counter
is 0; moreover an entity whose counter is not positive is neither copied
nor decremented by a frame.  Stated for a render item and for a material
other than "water" (AnimateMaterials re-edits the water material every
frame, so only non-water materials satisfy the no-further-edits premise). -/
theorem C2_dirty_propagation (dt : ℚ) (s : UpdateState)
    (hndo : (s.mAllRitems.map (fun x => x.ObjCBIndex)).Nodup)
    (hndm : (s.mMaterials.map (fun m => m.MatCBIndex)).Nodup)
    (e : RenderItemState) (he : e ∈ s.mAllRitems) (hde : e.NumFramesDirty = 3)
    (m : MaterialState) (hm : m ∈ s.mMaterials) (hmw : m.Name ≠ "water")
    (hdm : m.NumFramesDirty = 3) :
    (∀ f : Fin 3,
      (updateFrame dt (updateFrame dt (updateFrame dt s))).objCB f e.ObjCBIndex =
        some (objectConstantsOf e)) ∧
    (∃ e' ∈ (updateFrame dt (updateFrame dt (updateFrame dt s))).mAllRitems,
      e'.ObjCBIndex = e.ObjCBIndex ∧ e'.World = e.World ∧
      e'.TexTransform = e.TexTransform ∧ e'.NumFramesDirty = 0) ∧
    (∀ f : Fin 3,
      (updateFrame dt (updateFrame dt (updateFrame dt s))).matCB f m.MatCBIndex =
        some (materialConstantsOf m)) ∧
    (∃ m' ∈ (updateFrame dt (updateFrame dt (updateFrame dt s))).mMaterials,
      m'.MatCBIndex = m.MatCBIndex ∧ m'.NumFramesDirty = 0) ∧
    (∀ x ∈ s.mAllRitems, x.NumFramesDirty ≤ 0 →
      (updateFrame dt s).objCB (fin3 (s.currFrameResourceIndex + 1)) x.ObjCBIndex =
        s.objCB (fin3 (s.currFrameResourceIndex + 1)) x.ObjCBIndex ∧
      x ∈ (updateFrame dt s).mAllRitems) := by
  set c := s.currFrameResourceIndex with hc
  set s1 := updateFrame dt s with hs1
  set s2 := updateFrame dt s1 with hs2
  set s3 := updateFrame dt s2 with hs3
  have hc1 : s1.currFrameResourceIndex = (c + 1) % 3 := updateFrame_index dt s
  have hc2 : s2.currFrameResourceIndex = (c + 2) % 3 := by
    rw [hs2, updateFrame_index, hc1]; omega
  have hslot2 : fin3 (s1.currFrameResourceIndex + 1) = fin3 (c + 2) := by
    apply Fin.ext
    show (s1.currFrameResourceIndex + 1) % 3 = (c + 2) % 3
    rw [hc1]
    omega
  have hslot3 : fin3 (s2.currFrameResourceIndex + 1) = fin3 (c + 3) := by
    apply Fin.ext
    show (s2.currFrameResourceIndex + 1) % 3 = (c + 3) % 3
    rw [hc2]
    omega
  -- nodup transport
  have nd1o : (s1.mAllRitems.map (fun x => x.ObjCBIndex)).Nodup := by
    rw [hs1, updateFrame_items_map_index]; exact hndo
  have nd2o : (s2.mAllRitems.map (fun x => x.ObjCBIndex)).Nodup := by
    rw [hs2, updateFrame_items_map_index]; exact nd1o
  have nd1m : (s1.mMaterials.map (fun x => x.MatCBIndex)).Nodup := by
    rw [hs1, updateFrame_mats_map_index]; exact hndm
  have nd2m : (s2.mMaterials.map (fun x => x.MatCBIndex)).Nodup := by
    rw [hs2, updateFrame_mats_map_index]; exact nd1m
  -- the tracked render item through the frames
  have he1 : stepEntity objAccess e ∈ s1.mAllRitems := by
    rw [hs1, updateFrame_items]; exact List.mem_map_of_mem _ he
  have he2 : stepEntity objAccess (stepEntity objAccess e) ∈ s2.mAllRitems := by
    rw [hs2, updateFrame_items]; exact List.mem_map_of_mem _ he1
  have he3 : stepEntity objAccess (stepEntity objAccess (stepEntity objAccess e)) ∈
      s3.mAllRitems := by
    rw [hs3, updateFrame_items]; exact List.mem_map_of_mem _ he2
  have hde1 : (stepEntity objAccess e).NumFramesDirty = 2 := by
    rw [step_obj_dirty, hde]; norm_num
  have hde2 : (stepEntity objAccess (stepEntity objAccess e)).NumFramesDirty = 1 := by
    rw [step_obj_dirty, hde1]; norm_num
  have hde3 : (stepEntity objAccess (stepEntity objAccess
      (stepEntity objAccess e))).NumFramesDirty = 0 := by
    rw [step_obj_dirty, hde2]; norm_num
  -- the three writes
  have W1 : s1.objCB (fin3 (c + 1)) e.ObjCBIndex = some (objectConstantsOf e) :=
    updateFrame_objCB_write dt s e he (by rw [hde]; norm_num) hndo
  have W2 : s2.objCB (fin3 (c + 2)) e.ObjCBIndex = some (objectConstantsOf e) := by
    have h := updateFrame_objCB_write dt s1 (stepEntity objAccess e) he1
      (by rw [hde1]; norm_num) nd1o
    rw [hslot2, step_obj_index, step_obj_const] at h
    exact h
  have W3 : s3.objCB (fin3 (c + 3)) e.ObjCBIndex = some (objectConstantsOf e) := by
    have h := updateFrame_objCB_write dt s2
      (stepEntity objAccess (stepEntity objAccess e)) he2
      (by rw [hde2]; norm_num) nd2o
    rw [hslot3, step_obj_index, step_obj_index, step_obj_const, step_obj_const] at h
    exact h
  -- the tracked material through the frames
  have ham : m ∈ animateMaterials dt s.mMaterials :=
    mem_animateMaterials_nonwater dt s.mMaterials m hm hmw
  have hm1 : stepEntity matAccess m ∈ s1.mMaterials := by
    rw [hs1, updateFrame_mats]; exact List.mem_map_of_mem _ ham
  have hm1w : (stepEntity matAccess m).Name ≠ "water" := by
    rw [step_mat_Name]; exact hmw
  have ham1 : stepEntity matAccess m ∈ animateMaterials dt s1.mMaterials :=
    mem_animateMaterials_nonwater dt s1.mMaterials _ hm1 hm1w
  have hm2 : stepEntity matAccess (stepEntity matAccess m) ∈ s2.mMaterials := by
    rw [hs2, updateFrame_mats]; exact List.mem_map_of_mem _ ham1
  have hm2w : (stepEntity matAccess (stepEntity matAccess m)).Name ≠ "water" := by
    rw [step_mat_Name, step_mat_Name]; exact hmw
  have ham2 : stepEntity matAccess (stepEntity matAccess m) ∈
      animateMaterials dt s2.mMaterials :=
    mem_animateMaterials_nonwater dt s2.mMaterials _ hm2 hm2w
  have hm3 : stepEntity matAccess (stepEntity matAccess (stepEntity matAccess m)) ∈
      s3.mMaterials := by
    rw [hs3, updateFrame_mats]; exact List.mem_map_of_mem _ ham2
  have hdm1 : (stepEntity matAccess m).NumFramesDirty = 2 := by
    rw [step_mat_dirty, hdm]; norm_num
  have hdm2 : (stepEntity matAccess (stepEntity matAccess m)).NumFramesDirty = 1 := by
    rw [step_mat_dirty, hdm1]; norm_num
  have hdm3 : (stepEntity matAccess (stepEntity matAccess
      (stepEntity matAccess m))).NumFramesDirty = 0 := by
    rw [step_mat_dirty, hdm2]; norm_num
  have Wm1 : s1.matCB (fin3 (c + 1)) m.MatCBIndex = some (materialConstantsOf m) :=
    updateFrame_matCB_write dt s m ham (by rw [hdm]; norm_num) hndm
  have Wm2 : s2.matCB (fin3 (c + 2)) m.MatCBIndex = some (materialConstantsOf m) := by
    have h := updateFrame_matCB_write dt s1 (stepEntity matAccess m) ham1
      (by rw [hdm1]; norm_num) nd1m
    rw [hslot2, step_mat_index, step_mat_const] at h
    exact h
  have Wm3 : s3.matCB (fin3 (c + 3)) m.MatCBIndex = some (materialConstantsOf m) := by
    have h := updateFrame_matCB_write dt s2
      (stepEntity matAccess (stepEntity matAccess m)) ham2
      (by rw [hdm2]; norm_num) nd2m
    rw [hslot3, step_mat_index, step_mat_index, step_mat_const, step_mat_const] at h
    exact h
  refine ⟨?_, ?_, ?_, ?_, ?_⟩
  · intro f
    rcases fin3_cover c f with rfl | rfl | rfl
    · have p3 : s3.objCB (fin3 (c + 1)) = s2.objCB (fin3 (c + 1)) :=
        updateFrame_objCB_other dt s2 _ (by rw [hslot3]; exact fin3_ne _ _ (by omega))
      have p2 : s2.objCB (fin3 (c + 1)) = s1.objCB (fin3 (c + 1)) :=
        updateFrame_objCB_other dt s1 _ (by rw [hslot2]; exact fin3_ne _ _ (by omega))
      rw [p3, p2, W1]
    · have p3 : s3.objCB (fin3 (c + 2)) = s2.objCB (fin3 (c + 2)) :=
        updateFrame_objCB_other dt s2 _ (by rw [hslot3]; exact fin3_ne _ _ (by omega))
      rw [p3, W2]
    · exact W3
  · exact ⟨_, he3, by rw [step_obj_index, step_obj_index, step_obj_index],
      by rw [step_obj_World, step_obj_World, step_obj_World],
      by rw [step_obj_Tex, step_obj_Tex, step_obj_Tex], hde3⟩
  · intro f
    rcases fin3_cover c f with rfl | rfl | rfl
    · have p3 : s3.matCB (fin3 (c + 1)) = s2.matCB (fin3 (c + 1)) :=
        updateFrame_matCB_other dt s2 _ (by rw [hslot3]; exact fin3_ne _ _ (by omega))
      have p2 : s2.matCB (fin3 (c + 1)) = s1.matCB (fin3 (c + 1)) :=
        updateFrame_matCB_other dt s1 _ (by rw [hslot2]; exact fin3_ne _ _ (by omega))
      rw [p3, p2, Wm1]
    · have p3 : s3.matCB (fin3 (c + 2)) = s2.matCB (fin3 (c + 2)) :=
        updateFrame_matCB_other dt s2 _ (by rw [hslot3]; exact fin3_ne _ _ (by omega))
      rw [p3, Wm2]
    · exact Wm3
  · exact ⟨_, hm3, by rw [step_mat_index, step_mat_index, step_mat_index], hdm3⟩
  · intro x hx hneg
    constructor
    · apply updateFrame_objCB_nowrite dt s x.ObjCBIndex
      intro y hy hk
      have hyx : y = x :=
        List.inj_on_of_nodup_map hndo hy hx hk
      rw [hyx]
      exact hneg
    · rw [hs1, updateFrame_items]
      have hstep : stepEntity objAccess x = x := by
        unfold stepEntity
        have hno : ¬ 0 < objAccess.dirty x := by
          show ¬ 0 < x.NumFramesDirty
          omega
        rw [if_neg hno]
      rw [← hstep]
      exact List.mem_map_of_mem _ hx

/-- A one-item, one-material concrete state for the C2 witness. -/
def eDemo : RenderItemState :=
  { World := identity4x4, TexTransform := identity4x4
  , NumFramesDirty := 3, ObjCBIndex := 0 }

/-- A grass-like material (not "water") for the C2 witness. -/
def mDemo : MaterialState :=
  { Name := "grass", MatCBIndex := 0
  , DiffuseAlbedo := fun _ => 1, FresnelR0 := fun _ => 1/100
  , Roughness := 1/8, MatTransform := identity4x4, NumFramesDirty := 3 }

def sDemo : UpdateState :=
  { currFrameResourceIndex := 0
  , mAllRitems := [eDemo]
  , mMaterials := [mDemo]
  , objCB := fun _ _ => none
  , matCB := fun _ _ => none }

/-- Witness for C2: after 3 frames from the concrete one-item state, ring
slot 0 holds the item's transposed constants. -/
theorem C2_dirty_propagation_witness :
    (updateFrame 1 (updateFrame 1 (updateFrame 1 sDemo))).objCB 0 eDemo.ObjCBIndex =
      some (objectConstantsOf eDemo) :=
  (C2_dirty_propagation 1 sDemo (by simp [sDemo]) (by simp [sDemo])
    eDemo (by simp [sDemo]) rfl
    mDemo (by simp [sDemo]) (by decide) rfl).1 0

lemma animateWater_Name (dt : ℚ) (m : MaterialState) :
    (animateWater dt m).Name = m.Name := rfl

lemma animateWater_index (dt : ℚ) (m : MaterialState) :
    (animateWater dt m).MatCBIndex = m.MatCBIndex := rfl

lemma animateWater_dirty (dt : ℚ) (m : MaterialState) :
    (animateWater dt m).NumFramesDirty = 3 := rfl

lemma animateBranch_water (dt : ℚ) (m : MaterialState) (h : m.Name = "water") :
    animateBranch dt m = animateWater dt m := if_pos h

lemma mem_animateMaterials_water (dt : ℚ) (ms : List MaterialState)
    (w : MaterialState) (hw : w ∈ ms) (h : w.Name = "water") :
    animateWater dt w ∈ animateMaterials dt ms := by
  unfold animateMaterials
  have hmem := List.mem_map_of_mem (animateBranch dt) hw
  rwa [animateBranch_water dt w h] at hmem

/-- The water material after one frame: it was re-marked dirty by
AnimateMaterials, so this frame copied its constants into the current
slot and left its counter at 2. -/
lemma updateFrame_water (dt : ℚ) (s : UpdateState) (w : MaterialState)
    (hw : w ∈ s.mMaterials) (hname : w.Name = "water")
    (hnd : (s.mMaterials.map (fun m => m.MatCBIndex)).Nodup) :
    stepEntity matAccess (animateWater dt w) ∈ (updateFrame dt s).mMaterials ∧
    (stepEntity matAccess (animateWater dt w)).Name = "water" ∧
    (stepEntity matAccess (animateWater dt w)).NumFramesDirty = 2 ∧
    (updateFrame dt s).matCB (fin3 (s.currFrameResourceIndex + 1))
        (stepEntity matAccess (animateWater dt w)).MatCBIndex =
      some (materialConstantsOf (stepEntity matAccess (animateWater dt w))) := by
  have haw : animateWater dt w ∈ animateMaterials dt s.mMaterials :=
    mem_animateMaterials_water dt s.mMaterials w hw hname
  have hd : 0 < (animateWater dt w).NumFramesDirty := by
    rw [animateWater_dirty]; norm_num
  refine ⟨?_, ?_, ?_, ?_⟩
  · rw [updateFrame_mats]
    exact List.mem_map_of_mem _ haw
  · rw [step_mat_Name, animateWater_Name]
    exact hname
  · rw [step_mat_dirty, animateWater_dirty]
    norm_num
  · have h := updateFrame_matCB_write dt s (animateWater dt w) haw hd hnd
    rw [step_mat_index, step_mat_const]
    exact h

/-- Any water-named material present after a frame has counter exactly 2:
AnimateMaterials set it to 3 and the update pass decremented it once. -/
lemma updateFrame_all_water_dirty (dt : ℚ) (s : UpdateState) :
    ∀ m' ∈ (updateFrame dt s).mMaterials,
      m'.Name = "water" → m'.NumFramesDirty = 2 := by
  intro m' hm' hname
  rw [updateFrame_mats] at hm'
  unfold animateMaterials at hm'
  rw [List.map_map] at hm'
  rcases List.mem_map.mp hm' with ⟨y, hy, rfl⟩
  by_cases h : y.Name = "water"
  · show (stepEntity matAccess (animateBranch dt y)).NumFramesDirty = 2
    rw [animateBranch_water dt y h, step_mat_dirty, animateWater_dirty]
    norm_num
  · exfalso
    apply h
    have : (stepEntity matAccess (animateBranch dt y)).Name = "water" := hname
    rw [step_mat_Name, animateBranch_nonwater dt y h] at this
    exact this

lemma iterate_water_inv (dt : ℚ) (s : UpdateState)
    (hw : ∃ w ∈ s.mMaterials, w.Name = "water")
    (hnd : (s.mMaterials.map (fun m => m.MatCBIndex)).Nodup) :
    ∀ n, (∃ w ∈ ((updateFrame dt)^[n] s).mMaterials, w.Name = "water") ∧
      ((((updateFrame dt)^[n] s).mMaterials).map (fun m => m.MatCBIndex)).Nodup := by
  intro n
  induction n with
  | zero => exact ⟨hw, hnd⟩
  | succ k ih =>
      rw [Function.iterate_succ_apply']
      obtain ⟨⟨w, hw', hn⟩, hnd'⟩ := ih
      constructor
      · obtain ⟨h1, h2, _, _⟩ := updateFrame_water dt _ w hw' hn hnd'
        exact ⟨_, h1, h2⟩
      · rw [updateFrame_mats_map_index]
        exact hnd'

lemma iterate_mat_nodup (dt : ℚ) (s : UpdateState)
    (hnd : (s.mMaterials.map (fun m => m.MatCBIndex)).Nodup) :
    ∀ n, ((((updateFrame dt)^[n] s).mMaterials).map (fun m => m.MatCBIndex)).Nodup := by
  intro n
  induction n with
  | zero => exact hnd
  | succ k ih =>
      rw [Function.iterate_succ_apply', updateFrame_mats_map_index]
      exact ih

lemma iterate_index_mod (dt : ℚ) (s : UpdateState) :
    ∀ n, ((updateFrame dt)^[n] s).currFrameResourceIndex % 3 =
      (s.currFrameResourceIndex + n) % 3 := by
  intro n
  induction n with
  | zero => simp
  | succ k ih =>
      rw [Function.iterate_succ_apply', updateFrame_index]
      omega

/-- A settled material (counter at most 0, not water, the sole owner of
its slot index) is untouched by a frame, and no frame writes its slot
element in any ring slot. -/
lemma updateFrame_settled (dt : ℚ) (s : UpdateState) (k : Nat) (m3 : MaterialState)
    (huniq : ∀ x ∈ s.mMaterials, x.MatCBIndex = k → x = m3)
    (hmem : m3 ∈ s.mMaterials)
    (hname : m3.Name ≠ "water") (hdirty : m3.NumFramesDirty ≤ 0) :
    (∀ x ∈ (updateFrame dt s).mMaterials, x.MatCBIndex = k → x = m3) ∧
    m3 ∈ (updateFrame dt s).mMaterials ∧
    ∀ g : Fin 3, (updateFrame dt s).matCB g k = s.matCB g k := by
  have hgm3 : animateBranch dt m3 = m3 := animateBranch_nonwater dt m3 hname
  have hsm3 : stepEntity matAccess m3 = m3 := by
    unfold stepEntity
    have hno : ¬ 0 < matAccess.dirty m3 := by
      show ¬ 0 < m3.NumFramesDirty
      omega
    rw [if_neg hno]
  refine ⟨?_, ?_, ?_⟩
  · intro x hx hk
    rw [updateFrame_mats] at hx
    unfold animateMaterials at hx
    rw [List.map_map] at hx
    rcases List.mem_map.mp hx with ⟨y, hy, rfl⟩
    have hky : y.MatCBIndex = k := by
      have : (stepEntity matAccess (animateBranch dt y)).MatCBIndex = k := hk
      rwa [step_mat_index, animateBranch_index] at this
    have hym3 : y = m3 := huniq y hy hky
    show stepEntity matAccess (animateBranch dt y) = m3
    rw [hym3, hgm3, hsm3]
  · rw [updateFrame_mats]
    rw [← hsm3]
    exact List.mem_map_of_mem _
      (mem_animateMaterials_nonwater dt s.mMaterials m3 hmem hname)
  · intro g
    by_cases hg : g = fin3 (s.currFrameResourceIndex + 1)
    · subst hg
      apply updateFrame_matCB_nowrite
      intro x hx hk
      unfold animateMaterials at hx
      rcases List.mem_map.mp hx with ⟨y, hy, rfl⟩
      rw [animateBranch_index] at hk
      have hym3 : y = m3 := huniq y hy hk
      rw [hym3, hgm3]
      exact hdirty
    · rw [updateFrame_matCB_other dt s g hg]

lemma iterate_settled (dt : ℚ) (s0 : UpdateState) (k : Nat) (m3 : MaterialState)
    (hu0 : ∀ x ∈ s0.mMaterials, x.MatCBIndex = k → x = m3)
    (hm0 : m3 ∈ s0.mMaterials)
    (hname : m3.Name ≠ "water") (hdirty : m3.NumFramesDirty ≤ 0) :
    ∀ n, ((∀ x ∈ ((updateFrame dt)^[n] s0).mMaterials, x.MatCBIndex = k → x = m3) ∧
      m3 ∈ ((updateFrame dt)^[n] s0).mMaterials) ∧
      ∀ g : Fin 3, ((updateFrame dt)^[n] s0).matCB g k = s0.matCB g k := by
  intro n
  induction n with
  | zero => exact ⟨⟨hu0, hm0⟩, fun g => rfl⟩
  | succ j ih =>
      rw [Function.iterate_succ_apply']
      obtain ⟨⟨hu, hmem⟩, hcb⟩ := ih
      obtain ⟨hu', hmem', hcb'⟩ := updateFrame_settled dt _ k m3 hu hmem hname hdirty
      exact ⟨⟨hu', hmem'⟩, fun g => (hcb' g).trans (hcb g)⟩

/-- Claim C10: AnimateMaterials resets the water material's dirty counter
to ring depth (3) before the material constant-buffer pass of the same
frame, so: after every frame each water-named material's counter is
exactly 2 (it never reaches 0 — it never settles); on every single frame
the water constants are re-copied into the current ring slot; by
contrast, a non-water material whose counter was 3 counts down to 0
after 3 frames and from then on is present with counter 0 and its
constant-buffer element is never written again in any ring slot. -/
theorem C10_water_never_settles (dt : ℚ) (s : UpdateState)
    (hnd : (s.mMaterials.map (fun m => m.MatCBIndex)).Nodup)
    (hw : ∃ w ∈ s.mMaterials, w.Name = "water")
    (m : MaterialState) (hm : m ∈ s.mMaterials) (hmw : m.Name ≠ "water")
    (hmd : m.NumFramesDirty = 3) :
    (∀ n, 1 ≤ n → ∀ m' ∈ ((updateFrame dt)^[n] s).mMaterials,
        m'.Name = "water" → m'.NumFramesDirty = 2) ∧
    (∀ n, ∃ w' ∈ ((updateFrame dt)^[n + 1] s).mMaterials,
        w'.Name = "water" ∧ w'.NumFramesDirty = 2 ∧
        ((updateFrame dt)^[n + 1] s).matCB
            (fin3 (s.currFrameResourceIndex + n + 1)) w'.MatCBIndex =
          some (materialConstantsOf w')) ∧
    (∀ n, ∃ m' ∈ ((updateFrame dt)^[n + 3] s).mMaterials,
        m'.MatCBIndex = m.MatCBIndex ∧ m'.Name = m.Name ∧
        m'.NumFramesDirty = 0) ∧
    (∀ n, ∀ g : Fin 3,
        ((updateFrame dt)^[n + 3] s).matCB g m.MatCBIndex =
          ((updateFrame dt)^[3] s).matCB g m.MatCBIndex) := by
  -- the non-water material settles after 3 frames
  set s1 := updateFrame dt s with hs1
  set s2 := updateFrame dt s1 with hs2
  set s3 := updateFrame dt s2 with hs3
  have hs3it : (updateFrame dt)^[3] s = s3 := by
    rw [hs3, hs2, hs1]
    rfl
  have nd1 : (s1.mMaterials.map (fun x => x.MatCBIndex)).Nodup := by
    rw [hs1, updateFrame_mats_map_index]; exact hnd
  have nd2 : (s2.mMaterials.map (fun x => x.MatCBIndex)).Nodup := by
    rw [hs2, updateFrame_mats_map_index]; exact nd1
  have nd3 : (s3.mMaterials.map (fun x => x.MatCBIndex)).Nodup := by
    rw [hs3, updateFrame_mats_map_index]; exact nd2
  have ham : m ∈ animateMaterials dt s.mMaterials :=
    mem_animateMaterials_nonwater dt s.mMaterials m hm hmw
  have hm1 : stepEntity matAccess m ∈ s1.mMaterials := by
    rw [hs1, updateFrame_mats]; exact List.mem_map_of_mem _ ham
  have hm1w : (stepEntity matAccess m).Name ≠ "water" := by
    rw [step_mat_Name]; exact hmw
  have ham1 : stepEntity matAccess m ∈ animateMaterials dt s1.mMaterials :=
    mem_animateMaterials_nonwater dt s1.mMaterials _ hm1 hm1w
  have hm2 : stepEntity matAccess (stepEntity matAccess m) ∈ s2.mMaterials := by
    rw [hs2, updateFrame_mats]; exact List.mem_map_of_mem _ ham1
  have hm2w : (stepEntity matAccess (stepEntity matAccess m)).Name ≠ "water" := by
    rw [step_mat_Name, step_mat_Name]; exact hmw
  have ham2 : stepEntity matAccess (stepEntity matAccess m) ∈
      animateMaterials dt s2.mMaterials :=
    mem_animateMaterials_nonwater dt s2.mMaterials _ hm2 hm2w
  have hm3 : stepEntity matAccess (stepEntity matAccess (stepEntity matAccess m)) ∈
      s3.mMaterials := by
    rw [hs3, updateFrame_mats]; exact List.mem_map_of_mem _ ham2
  have hm3w : (stepEntity matAccess (stepEntity matAccess
      (stepEntity matAccess m))).Name = m.Name := by
    rw [step_mat_Name, step_mat_Name, step_mat_Name]
  have hidx3 : (stepEntity matAccess (stepEntity matAccess
      (stepEntity matAccess m))).MatCBIndex = m.MatCBIndex := by
    rw [step_mat_index, step_mat_index, step_mat_index]
  have hdm1 : (stepEntity matAccess m).NumFramesDirty = 2 := by
    rw [step_mat_dirty, hmd]; norm_num
  have hdm2 : (stepEntity matAccess (stepEntity matAccess m)).NumFramesDirty = 1 := by
    rw [step_mat_dirty, hdm1]; norm_num
  have hdm3 : (stepEntity matAccess (stepEntity matAccess
      (stepEntity matAccess m))).NumFramesDirty = 0 := by
    rw [step_mat_dirty, hdm2]; norm_num
  have huniq3 : ∀ x ∈ s3.mMaterials, x.MatCBIndex = m.MatCBIndex →
      x = stepEntity matAccess (stepEntity matAccess (stepEntity matAccess m)) := by
    intro x hx hk
    exact List.inj_on_of_nodup_map nd3 hx hm3 (by rw [hk, hidx3])
  have hsettled := iterate_settled dt s3 m.MatCBIndex
    (stepEntity matAccess (stepEntity matAccess (stepEntity matAccess m)))
    huniq3 hm3 (by rw [hm3w]; exact hmw) (by rw [hdm3])
  refine ⟨?_, ?_, ?_, ?_⟩
  · intro n hn m' hm' hname
    rcases Nat.exists_eq_add_of_le hn with ⟨k, rfl⟩
    rw [Nat.add_comm, Function.iterate_succ_apply'] at hm'
    exact updateFrame_all_water_dirty dt _ m' hm' hname
  · intro n
    obtain ⟨⟨w, hw', hn'⟩, hnd'⟩ := iterate_water_inv dt s hw hnd n
    obtain ⟨h1, h2, h3, h4⟩ := updateFrame_water dt ((updateFrame dt)^[n] s) w hw' hn' hnd'
    rw [Function.iterate_succ_apply']
    refine ⟨_, h1, h2, h3, ?_⟩
    have hfeq : fin3 (((updateFrame dt)^[n] s).currFrameResourceIndex + 1) =
        fin3 (s.currFrameResourceIndex + n + 1) := by
      apply Fin.ext
      show (((updateFrame dt)^[n] s).currFrameResourceIndex + 1) % 3 =
        (s.currFrameResourceIndex + n + 1) % 3
      have := iterate_index_mod dt s n
      omega
    rw [← hfeq]
    exact h4
  · intro n
    have hiter : (updateFrame dt)^[n + 3] s = (updateFrame dt)^[n] s3 := by
      rw [Function.iterate_add_apply, hs3it]
    rw [hiter]
    exact ⟨_, (hsettled n).1.2, hidx3, hm3w, hdm3⟩
  · intro n g
    have hiter : (updateFrame dt)^[n + 3] s = (updateFrame dt)^[n] s3 := by
      rw [Function.iterate_add_apply, hs3it]
    rw [hiter, hs3it]
    exact (hsettled n).2 g

/-- The water material of TreeBillboardsApp::BuildMaterials for the C10
witness (MatCBIndex 1, albedo (1,1,1,0.5), FresnelR0 0.1, roughness 0). -/
def waterDemo : MaterialState :=
  { Name := "water", MatCBIndex := 1
  , DiffuseAlbedo := fun i => if i = 3 then 1/2 else 1
  , FresnelR0 := fun _ => 1/10
  , Roughness := 0, MatTransform := identity4x4, NumFramesDirty := 3 }

def sWDemo : UpdateState :=
  { currFrameResourceIndex := 0
  , mAllRitems := []
  , mMaterials := [mDemo, waterDemo]
  , objCB := fun _ _ => none
  , matCB := fun _ _ => none }

/-- Witness for C10: after the first frame from the concrete two-material
state, some water-named material is present with counter 2 and its
constants freshly copied into the frame's ring slot. -/
theorem C10_water_never_settles_witness :
    ∃ w' ∈ ((updateFrame (1 : ℚ))^[0 + 1] sWDemo).mMaterials,
      w'.Name = "water" ∧ w'.NumFramesDirty = 2 ∧
      ((updateFrame (1 : ℚ))^[0 + 1] sWDemo).matCB
          (fin3 (sWDemo.currFrameResourceIndex + 0 + 1)) w'.MatCBIndex =
        some (materialConstantsOf w') :=
  (C10_water_never_settles 1 sWDemo (by simp [sWDemo, mDemo, waterDemo])
    ⟨waterDemo, by simp [sWDemo], rfl⟩
    mDemo (by simp [sWDemo]) (by decide) rfl).2.1 0

/-! ## Submesh range validity (BuildShapeGeometry, BuildBoxGeometry,
BuildLandGeometry, BuildWavesGeometry, BuildTreeSpritesGeometry) -/

/-- Modelled from the spec: a procedural mesh produced by the
GeometryGenerator collaborator (Common/GeometryGenerator.cpp, not under
src/), consumed as an opaque "produce vertices+indices for shape X"
capability: a vertex count and the list of 16-bit local indices. -/
structure MeshData where
  nVertices : Nat
  indices : List Nat
deriving DecidableEq

/-- A generator output is well formed when every one of its indices
references one of its own vertices. -/
def MeshData.valid (md : MeshData) : Prop :=
  ∀ i ∈ md.indices, i < md.nVertices

instance : DecidablePred MeshData.valid := fun md =>
  decidable_of_iff (∀ i ∈ md.indices, i < md.nVertices) Iff.rfl

/-- The running offset counters of BuildShapeGeometry (MyCastleApp) and
BuildBoxGeometry (TreeBillboardsApp), as a structural recursion: the
first shape's submesh starts at index offset 0 and base vertex 0, and
every later submesh is the tail's submesh shifted by the first shape's
index and vertex counts — exactly the scheme boxIndexOffset = 0,
sphereIndexOffset = boxIndexOffset + box.Indices32.size(), ... of the
source. -/
def buildSubmeshes : List MeshData → List Submesh
  | [] => []
  | md :: rest =>
      { IndexCount := md.indices.length
      , StartIndexLocation := 0
      , BaseVertexLocation := 0 } ::
      (buildSubmeshes rest).map (fun sm =>
        { IndexCount := sm.IndexCount
        , StartIndexLocation := md.indices.length + sm.StartIndexLocation
        , BaseVertexLocation := md.nVertices + sm.BaseVertexLocation })

/-- The shared index buffer: each shape's indices concatenated in shape
order (the insert calls at the end of both builders). -/
def concatIndices (ms : List MeshData) : List Nat :=
  ms.flatMap (fun md => md.indices)

/-- totalVertexCount of the concatenated group. -/
def totalVertexCount (ms : List MeshData) : Nat :=
  (ms.map (fun md => md.nVertices)).sum

/-- The total index count of the concatenated group. -/
def totalIndexCount (ms : List MeshData) : Nat :=
  (ms.map (fun md => md.indices.length)).sum

/-- The submesh table of TreeBillboardsApp::BuildBoxGeometry: eight
shapes share one buffer pair with running offsets in this order. -/
def boxGeoSubmeshes (box sphere cylinder cone pfh pph wedge pcyl : MeshData) :
    List Submesh :=
  buildSubmeshes [box, sphere, cylinder, cone, pfh, pph, wedge, pcyl]

/-- The submesh table of MyCastleApp::BuildShapeGeometry: ten shapes
share one buffer pair with running offsets in this order. -/
def shapeGeoSubmeshes
    (box grid sphere cylinder cone pfh pph wedge pcyl gate : MeshData) :
    List Submesh :=
  buildSubmeshes [box, grid, sphere, cylinder, cone, pfh, pph, wedge, pcyl, gate]

/-- The index pattern BuildWavesGeometry writes for quad (i, j) of an
m x n vertex grid (two triangles, six indices). -/
def quadIndices (n i j : Nat) : List Nat :=
  [i * n + j, i * n + j + 1, (i + 1) * n + j,
   (i + 1) * n + j, i * n + j + 1, (i + 1) * n + j + 1]

/-- BuildWavesGeometry's index buffer: the quad loop over the
(m-1) x (n-1) cells in row-major order. -/
def wavesIndices (m n : Nat) : List Nat :=
  (List.range (m - 1)).flatMap (fun i =>
    (List.range (n - 1)).flatMap (fun j => quadIndices n i j))

/-- BuildWavesGeometry's single submesh "grid": the whole index range
with base vertex 0; the wave mesh has m * n vertices (Waves::VertexCount,
modelled from the spec's wave-grid description as rows * columns). -/
def wavesSubmesh (m n : Nat) : Submesh :=
  { IndexCount := (wavesIndices m n).length
  , StartIndexLocation := 0
  , BaseVertexLocation := 0 }

/-- BuildTreeSpritesGeometry: 20 point sprites, indices 0..19, one
whole-range submesh. -/
def treeSpritesMesh : MeshData :=
  { nVertices := 20
  , indices := [0, 1, 2, 3, 4, 5, 6, 7, 8, 9, 10,
                11, 12, 13, 14, 15, 16, 17, 18, 19] }

lemma buildSubmeshes_bounds (ms : List MeshData)
    (hvalid : ∀ md ∈ ms, md.valid) :
    ∀ sm ∈ buildSubmeshes ms,
      sm.StartIndexLocation + sm.IndexCount ≤ totalIndexCount ms ∧
      ∀ j ∈ ((concatIndices ms).drop sm.StartIndexLocation).take sm.IndexCount,
        sm.BaseVertexLocation + j < totalVertexCount ms := by
  induction ms with
  | nil => intro sm hsm; simp [buildSubmeshes] at hsm
  | cons md rest ih =>
      intro sm hsm
      rw [buildSubmeshes] at hsm
      rcases List.mem_cons.mp hsm with rfl | hsm
      · constructor
        · show 0 + md.indices.length ≤ totalIndexCount (md :: rest)
          simp only [totalIndexCount, List.map_cons, List.sum_cons]
          omega
        · intro j hj
          have hslice :
              ((concatIndices (md :: rest)).drop 0).take md.indices.length =
                md.indices := by
            show ((md.indices ++ concatIndices rest).drop 0).take
              md.indices.length = md.indices
            rw [List.drop_zero]
            exact List.take_left md.indices (concatIndices rest)
          rw [hslice] at hj
          have hj2 := hvalid md (by simp) j hj
          show 0 + j < totalVertexCount (md :: rest)
          simp only [totalVertexCount, List.map_cons, List.sum_cons]
          omega
      · rcases List.mem_map.mp hsm with ⟨sm0, hsm0, rfl⟩
        obtain ⟨ha, hb⟩ := ih (fun x hx => hvalid x (by simp [hx])) sm0 hsm0
        constructor
        · show md.indices.length + sm0.StartIndexLocation + sm0.IndexCount ≤
            totalIndexCount (md :: rest)
          simp only [totalIndexCount, List.map_cons, List.sum_cons] at ha ⊢
          omega
        · intro j hj
          have hdrop : (concatIndices (md :: rest)).drop
              (md.indices.length + sm0.StartIndexLocation) =
              (concatIndices rest).drop sm0.StartIndexLocation := by
            show (md.indices ++ concatIndices rest).drop
              (md.indices.length + sm0.StartIndexLocation) = _
            exact List.drop_append sm0.StartIndexLocation
          have hj' : j ∈ ((concatIndices rest).drop
              sm0.StartIndexLocation).take sm0.IndexCount := by
            rw [← hdrop]
            exact hj
          have hbj := hb j hj'
          show md.nVertices + sm0.BaseVertexLocation + j <
            totalVertexCount (md :: rest)
          simp only [totalVertexCount, List.map_cons, List.sum_cons] at hbj ⊢
          omega

lemma wavesIndices_lt (m n : Nat) : ∀ x ∈ wavesIndices m n, x < m * n := by
  intro x hx
  rcases List.mem_flatMap.mp hx with ⟨i, hi, hx⟩
  rcases List.mem_flatMap.mp hx with ⟨j, hj, hx⟩
  rw [List.mem_range] at hi hj
  have hii : i * n ≤ (i + 1) * n := Nat.mul_le_mul_right n (by omega)
  have h1 : (i + 1) * n ≤ (m - 1) * n := Nat.mul_le_mul_right n (by omega)
  have h2 : (m - 1) * n + n = m * n := by
    have hm : 1 ≤ m := by omega
    calc (m - 1) * n + n = (m - 1 + 1) * n := by ring
    _ = m * n := by rw [Nat.sub_add_cancel hm]
  simp only [quadIndices, List.mem_cons, List.not_mem_nil, or_false] at hx
  rcases hx with rfl | rfl | rfl | rfl | rfl | rfl <;> omega

/-- Claim C6: every submesh recorded by the geometry builders stays
inside its owning geometry's shared buffers: start_index + index_count
is at most the total index count, and base_vertex plus any local index
referenced by the submesh's index range is strictly below the total
vertex count.  Stated for the generic concatenated group (hence for
BuildBoxGeometry's eight shapes, BuildShapeGeometry's ten shapes, and
the single-submesh land and tree-sprite geometries), for the wave grid's
generated index buffer, and concretely for the tree-sprite mesh. -/
theorem C6_submesh_ranges :
    (∀ ms : List MeshData, (∀ md ∈ ms, md.valid) →
      ∀ sm ∈ buildSubmeshes ms,
        sm.StartIndexLocation + sm.IndexCount ≤ totalIndexCount ms ∧
        ∀ j ∈ ((concatIndices ms).drop sm.StartIndexLocation).take sm.IndexCount,
          sm.BaseVertexLocation + j < totalVertexCount ms) ∧
    (∀ box sphere cylinder cone pfh pph wedge pcyl : MeshData,
      (∀ md ∈ [box, sphere, cylinder, cone, pfh, pph, wedge, pcyl], md.valid) →
      ∀ sm ∈ boxGeoSubmeshes box sphere cylinder cone pfh pph wedge pcyl,
        sm.StartIndexLocation + sm.IndexCount ≤
          totalIndexCount [box, sphere, cylinder, cone, pfh, pph, wedge, pcyl]) ∧
    (∀ box grid sphere cylinder cone pfh pph wedge pcyl gate : MeshData,
      (∀ md ∈ [box, grid, sphere, cylinder, cone, pfh, pph, wedge, pcyl, gate],
        md.valid) →
      ∀ sm ∈ shapeGeoSubmeshes box grid sphere cylinder cone pfh pph wedge pcyl gate,
        sm.StartIndexLocation + sm.IndexCount ≤
          totalIndexCount
            [box, grid, sphere, cylinder, cone, pfh, pph, wedge, pcyl, gate]) ∧
    (∀ m n : Nat,
      (wavesSubmesh m n).StartIndexLocation + (wavesSubmesh m n).IndexCount ≤
        (wavesIndices m n).length ∧
      ∀ x ∈ wavesIndices m n,
        (wavesSubmesh m n).BaseVertexLocation + x < m * n) ∧
    treeSpritesMesh.valid := by
  refine ⟨buildSubmeshes_bounds, ?_, ?_, ?_, ?_⟩
  · intro box sphere cylinder cone pfh pph wedge pcyl hvalid sm hsm
    exact (buildSubmeshes_bounds _ hvalid sm hsm).1
  · intro box grid sphere cylinder cone pfh pph wedge pcyl gate hvalid sm hsm
    exact (buildSubmeshes_bounds _ hvalid sm hsm).1
  · intro m n
    refine ⟨by simp [wavesSubmesh], ?_⟩
    intro x hx
    show 0 + x < m * n
    rw [Nat.zero_add]
    exact wavesIndices_lt m n x hx
  · show ∀ i ∈ treeSpritesMesh.indices, i < treeSpritesMesh.nVertices
    decide

/-- Witness for C6: a two-shape group (2 vertices with indices 0,1 and
3 vertices with indices 0,2); the second submesh starts at index 2 with
base vertex 2 and stays inside the 4-index, 5-vertex shared buffers. -/
theorem C6_submesh_ranges_witness :
    2 + 2 ≤
      totalIndexCount
        [{ nVertices := 2, indices := [0, 1] },
         { nVertices := 3, indices := [0, 2] }] ∧
    ∀ j ∈ ((concatIndices
        [{ nVertices := 2, indices := [0, 1] },
         { nVertices := 3, indices := [0, 2] }]).drop 2).take 2,
      2 + j <
        totalVertexCount
          [{ nVertices := 2, indices := [0, 1] },
           { nVertices := 3, indices := [0, 2] }] :=
  C6_submesh_ranges.1
    [{ nVertices := 2, indices := [0, 1] },
     { nVertices := 3, indices := [0, 2] }]
    (by decide)
    { IndexCount := 2, StartIndexLocation := 2, BaseVertexLocation := 2 }
    (by decide)

end Game3111
